import Mathlib

/-!
# AmbiCreator: A-format to B-format encoder (Source/PluginProcessor.cpp)

A shallow embedding of `AafoaCreatorAudioProcessor`: the control state written
by `parameterChanged`, the lifecycle step `prepareToPlay`, and the per-block
pipeline `processBlock` (A-to-B matrix, filter/delay bank, SN3D weighting,
ACN/FuMa reordering).

Conventions of the embedding.

* Samples live in an arbitrary field `K` (the reals, or the rationals when a
  value is to be computed); `float` rounding is not modelled.
* Sample rates, delay times and parameter values are rationals.
* A channel of an `AudioBuffer` is the memory behind its pointer, a function
  from the sample index to the sample; the vector operations touch the first
  `num` samples only, as in the source.
* `juce::dsp::IIR::Filter` and `juce::dsp::Convolution` are library classes;
  they enter as an interface (`JuceDsp`) whose behaviour is left unspecified.
* `FIR_LEN`, `FIR_SAMPLE_RATE`, the SN3D weights and the coefficient tables
  are declared in a header; they enter as the record `Constants`.
-/

namespace AmbiCreator

/-! ## Numeric conversions -/

/-- C++ `static_cast<int>` of a floating value: the fractional part is
discarded (truncation toward zero). Values outside the range of `int` are not
modelled. -/
def staticCastInt (x : ℚ) : ℤ := if 0 ≤ x then ⌊x⌋ else ⌈x⌉

/-! ## juce::FloatVectorOperations -/

namespace FloatVectorOperations

variable {K : Type} [Field K]

/-- The call `copy (dest, src, num)`: `dest[i] = src[i]` for `i < num`. -/
def copy (dest src : ℕ → K) (num : ℕ) : ℕ → K :=
  fun i => if i < num then src i else dest i

/-- The call `add (dest, src, num)`: `dest[i] += src[i]` for `i < num`. -/
def add (dest src : ℕ → K) (num : ℕ) : ℕ → K :=
  fun i => if i < num then dest i + src i else dest i

/-- The call `subtract (dest, src, num)`: `dest[i] -= src[i]` for `i < num`. -/
def subtract (dest src : ℕ → K) (num : ℕ) : ℕ → K :=
  fun i => if i < num then dest i - src i else dest i

/-- The call `multiply (dest, multiplier, num)`: `dest[i] *= multiplier` for `i < num`. -/
def multiply (dest : ℕ → K) (multiplier : K) (num : ℕ) : ℕ → K :=
  fun i => if i < num then dest i * multiplier else dest i

end FloatVectorOperations

/-! ## juce::AudioBuffer -/

/-- A `juce::AudioBuffer<float>`: its dimensions and its samples, addressed by
channel and sample index. -/
structure AudioBuffer (K : Type) where
  numChannels : ℕ
  numSamples : ℕ
  data : ℕ → ℕ → K

namespace AudioBuffer

variable {K : Type} [Field K]

/-- The call `getNumChannels ()`. -/
def getNumChannels (b : AudioBuffer K) : ℕ := b.numChannels

/-- The call `getNumSamples ()`. -/
def getNumSamples (b : AudioBuffer K) : ℕ := b.numSamples

/-- The call `getReadPointer (channel)`: the memory of one channel. -/
def getReadPointer (b : AudioBuffer K) (channel : ℕ) : ℕ → K := b.data channel

/-- The call `getWritePointer (channel)`: the memory of one channel. -/
def getWritePointer (b : AudioBuffer K) (channel : ℕ) : ℕ → K := b.data channel

/-- The buffer once the memory behind the write pointer of `channel` holds
`samples`. -/
def store (b : AudioBuffer K) (channel : ℕ) (samples : ℕ → K) : AudioBuffer K :=
  { b with data := fun c => if c = channel then samples else b.data c }

/-- The call `setSize (newNumChannels, newNumSamples)`. -/
def setSize (b : AudioBuffer K) (newNumChannels newNumSamples : ℕ) : AudioBuffer K :=
  { b with numChannels := newNumChannels, numSamples := newNumSamples }

/-- The call `clear ()`: every sample of every channel becomes zero. -/
def clear (b : AudioBuffer K) : AudioBuffer K :=
  { b with data := fun _ _ => 0 }

/-- The call `copyFrom (destChannel, destStartSample, source, sourceChannel,
sourceStartSample, numSamples)`. -/
def copyFrom (b : AudioBuffer K) (destChannel destStartSample : ℕ) (source : AudioBuffer K)
    (sourceChannel sourceStartSample num : ℕ) : AudioBuffer K :=
  { b with
    data := fun c i =>
      if c = destChannel ∧ destStartSample ≤ i ∧ i < destStartSample + num then
        source.data sourceChannel (sourceStartSample + (i - destStartSample))
      else b.data c i }

end AudioBuffer

/-! ## juce::dsp interface -/

/-- The structure `juce::dsp::ProcessSpec`. -/
structure ProcessSpec where
  sampleRate : ℚ
  maximumBlockSize : ℕ
  numChannels : ℕ

/-- The part of `juce::dsp` the processor calls: a first-order IIR filter, a
convolution engine and `std::exp`. Each `process` works in place on the first
`num` samples of one channel and returns the new filter state with the new
channel memory. -/
structure JuceDsp (K : Type) where
  IIRFilter : Type
  Convolution : Type
  exp : K → K
  iirPrepare : IIRFilter → ProcessSpec → IIRFilter
  iirReset : IIRFilter → IIRFilter
  iirSetCoefficients : IIRFilter → K → K → K → K → IIRFilter
  iirProcess : IIRFilter → (ℕ → K) → ℕ → IIRFilter × (ℕ → K)
  convPrepare : Convolution → ProcessSpec → Convolution
  convLoad : Convolution → (ℕ → K) → ℚ → ℕ → Convolution
  convReset : Convolution → Convolution
  convProcess : Convolution → (ℕ → K) → ℕ → Convolution × (ℕ → K)

/-! ## Delay line -/

/-- Modelled from the spec: the class `Delay` of the `delays` member is declared
outside PluginProcessor.cpp. The spec describes it as a stateful per-channel
fixed-length delay whose length is set in seconds, a pure delay (amplitude
unchanged) by the same number of samples as the computed latency. The state is
the delay time, the sample rate it was prepared for, the length in samples and
the samples still in flight, oldest first. -/
structure Delay (K : Type) where
  delayTimeSec : ℚ
  sampleRate : ℚ
  delayInSamples : ℕ
  line : List K

namespace Delay

variable {K : Type} [Field K]

/-- Modelled from the spec: a delay line before `setDelayTime` and `prepare`. -/
def fresh : Delay K :=
  { delayTimeSec := 0, sampleRate := 0, delayInSamples := 0, line := [] }

/-- Modelled from the spec: the length in samples is the same computation as the
declared latency, `static_cast<int> (seconds * sampleRate)`, and the line
starts silent. -/
def configure (d : Delay K) : Delay K :=
  let n := (staticCastInt (d.delayTimeSec * d.sampleRate)).toNat
  { d with delayInSamples := n, line := List.replicate n 0 }

/-- Modelled from the spec: `setDelayTime (seconds)` fixes the length of the
delay in seconds. -/
def setDelayTime (d : Delay K) (delayTimeInSeconds : ℚ) : Delay K :=
  configure { d with delayTimeSec := delayTimeInSeconds }

/-- Modelled from the spec: `prepare (spec)` adopts the sample rate and resets
the line to silence. -/
def prepare (d : Delay K) (spec : ProcessSpec) : Delay K :=
  configure { d with sampleRate := spec.sampleRate }

/-- Modelled from the spec: `process` on the first `num` samples of a channel.
The samples in flight leave first, the block follows them; what does not leave
within this block stays in the line. -/
def process (d : Delay K) (samples : ℕ → K) (num : ℕ) : Delay K × (ℕ → K) :=
  let stream := d.line ++ (List.range num).map samples
  ({ d with line := stream.drop num },
   fun i => if i < num then stream.getD i 0 else samples i)

end Delay

/-! ## Constants of the header -/

/-- Modelled from the spec: the enumeration `eChannelOrder` is declared in the
header; the spec gives it as `enum{ACN, FUMA}`, and the source uses `ACN` and
`FUMA` as the least and greatest value of the integer parameter `channelOrder`
whose default is 0. `ACN` is the first enumerator. -/
def eChannelOrder.ACN : ℤ := 0

/-- Modelled from the spec: `FUMA`, the second enumerator of `eChannelOrder`. -/
def eChannelOrder.FUMA : ℤ := 1

/-- The constants PluginProcessor.cpp takes from its header. -/
structure Constants (K : Type) where
  FIR_LEN : ℕ
  FIR_SAMPLE_RATE : ℚ
  SN3D_WEIGHT_0 : K
  SN3D_WEIGHT_1 : K
  DIFF_Z_EIGHT_EQ_COEFFS : ℕ → K
  COINC_EIGHT_EQ_COEFFS : ℕ → K
  COINC_OMNI_EQ_COEFFS : ℕ → K

/-! ## The processor -/

/-- State of an `AafoaCreatorAudioProcessor`: the seven control fields, the
latency declared to the host (`setLatencySamples`), the channel counts of the
negotiated bus layout, the working buffer and the filter and delay states. -/
structure AafoaCreatorAudioProcessor (K : Type) (J : JuceDsp K) where
  isWCombined : Bool
  doDifferentialZEqualization : Bool
  doCoincPatternEqualization : Bool
  channelOrder : ℤ
  outGain : ℚ
  zGain : ℚ
  horRotation : ℚ
  currentSampleRate : ℚ
  firLatencySec : ℚ
  latencySamples : ℤ
  totalNumInputChannels : ℕ
  totalNumOutputChannels : ℕ
  foaChannelBuffer : AudioBuffer K
  zFirCoeffBuffer : ℕ → K
  coincEightFirCoeffBuffer : ℕ → K
  coincOmniFirCoeffBuffer : ℕ → K
  iirLowShelf : J.IIRFilter
  zFilterConv : J.Convolution
  coincXEightFilterConv : J.Convolution
  coincYEightFilterConv : J.Convolution
  coincOmniFilterConv : J.Convolution
  delays : Fin 3 → Delay K

section Processor

variable {K : Type} [Field K] {J : JuceDsp K}

/-- The constructor (lines 5-56). The parameters start at their declared
defaults (three flags off, channel order 0, gains and rotation 0), the sample
rate at 48000, both buses are first-order ambisonic (4 channels), the declared
latency of a new `AudioProcessor` is 0, and every delay line is given the
delay time `firLatencySec`. The library objects start in the given states. -/
def AafoaCreatorAudioProcessor.new (c : Constants K) (iir0 : J.IIRFilter) (conv0 : J.Convolution) :
    AafoaCreatorAudioProcessor K J :=
  let firLatencySec : ℚ := ((c.FIR_LEN : ℚ) / 2 - 1) / c.FIR_SAMPLE_RATE
  { isWCombined := false
    doDifferentialZEqualization := false
    doCoincPatternEqualization := false
    channelOrder := 0
    outGain := 0
    zGain := 0
    horRotation := 0
    currentSampleRate := 48000
    firLatencySec := firLatencySec
    latencySamples := 0
    totalNumInputChannels := 4
    totalNumOutputChannels := 4
    foaChannelBuffer := { numChannels := 0, numSamples := 0, data := fun _ _ => 0 }
    zFirCoeffBuffer := FloatVectorOperations.copy (fun _ => 0) c.DIFF_Z_EIGHT_EQ_COEFFS c.FIR_LEN
    coincEightFirCoeffBuffer :=
      FloatVectorOperations.copy (fun _ => 0) c.COINC_EIGHT_EQ_COEFFS c.FIR_LEN
    coincOmniFirCoeffBuffer :=
      FloatVectorOperations.copy (fun _ => 0) c.COINC_OMNI_EQ_COEFFS c.FIR_LEN
    iirLowShelf := iir0
    zFilterConv := conv0
    coincXEightFilterConv := conv0
    coincYEightFilterConv := conv0
    coincOmniFilterConv := conv0
    delays := fun _ => Delay.fresh.setDelayTime firLatencySec }

/-- The call `setLatencySamples (newLatency)` of `juce::AudioProcessor`. -/
def setLatencySamples (p : AafoaCreatorAudioProcessor K J) (newLatency : ℤ) :
    AafoaCreatorAudioProcessor K J :=
  { p with latencySamples := newLatency }

/-- The call `getLatencySamples ()`: the latency declared to the host. -/
def getLatencySamples (p : AafoaCreatorAudioProcessor K J) : ℤ := p.latencySamples

/-- The call `setLowShelfCoefficients (sampleRate)` (lines 355-367). -/
def setLowShelfCoefficients (p : AafoaCreatorAudioProcessor K J) (sampleRate : ℚ) :
    AafoaCreatorAudioProcessor K J :=
  let wc2 : K := ((8418.4865639164 : ℚ) : K)
  let wc3 : K := ((62.831853071795862 : ℚ) : K)
  let T : K := 1 / (sampleRate : K)
  let b0 : K := T / 4 * (wc2 - wc3) + 1 / 2
  let b1 : K := -(1 / 2) * J.exp (-wc3 * T) * (1 - T / 2 * (wc2 - wc3))
  let a0 : K := 1
  let a1 : K := -J.exp (-wc3 * T)
  { p with iirLowShelf := J.iirSetCoefficients p.iirLowShelf b0 b1 a0 a1 }

/-- The call `prepareToPlay (sampleRate, samplesPerBlock)` (lines 125-165). -/
def prepareToPlay (c : Constants K) (p : AafoaCreatorAudioProcessor K J) (sampleRate : ℚ)
    (samplesPerBlock : ℕ) : AafoaCreatorAudioProcessor K J :=
  let p := { p with currentSampleRate := sampleRate }
  let p := { p with foaChannelBuffer := (p.foaChannelBuffer.setSize 4 samplesPerBlock).clear }
  let spec : ProcessSpec :=
    { sampleRate := sampleRate, numChannels := 1, maximumBlockSize := samplesPerBlock }
  let p := { p with iirLowShelf := J.iirReset (J.iirPrepare p.iirLowShelf spec) }
  let p := setLowShelfCoefficients p sampleRate
  let load := fun (conv : J.Convolution) (ir : ℕ → K) =>
    J.convReset (J.convLoad (J.convPrepare conv spec) ir c.FIR_SAMPLE_RATE c.FIR_LEN)
  let p := { p with zFilterConv := load p.zFilterConv p.zFirCoeffBuffer }
  let p := { p with coincXEightFilterConv := load p.coincXEightFilterConv p.coincEightFirCoeffBuffer }
  let p := { p with coincYEightFilterConv := load p.coincYEightFilterConv p.coincEightFirCoeffBuffer }
  let p := { p with coincOmniFilterConv := load p.coincOmniFilterConv p.coincOmniFirCoeffBuffer }
  let p := { p with delays := fun k => (p.delays k).prepare spec }
  if p.doDifferentialZEqualization then
    setLatencySamples p (staticCastInt (p.firLatencySec * sampleRate))
  else p

/-- The call `parameterChanged (parameterID, newValue)` (lines 324-353). -/
def parameterChanged (p : AafoaCreatorAudioProcessor K J) (parameterID : String) (newValue : ℚ) :
    AafoaCreatorAudioProcessor K J :=
  if parameterID = "combinedW" then
    { p with isWCombined := decide (newValue = 1) }
  else if parameterID = "diffEqualization" then
    let p := { p with doDifferentialZEqualization := decide (newValue = 1) }
    if newValue = 0 then
      setLatencySamples p 0
    else
      setLatencySamples p (staticCastInt (p.firLatencySec * p.currentSampleRate))
  else if parameterID = "coincEqualization" then
    { p with doCoincPatternEqualization := decide (newValue = 1) }
  else if parameterID = "channelOrder" then
    { p with
      channelOrder :=
        if staticCastInt newValue = eChannelOrder.FUMA then eChannelOrder.FUMA
        else eChannelOrder.ACN }
  else if parameterID = "outGain" then
    { p with outGain := newValue }
  else if parameterID = "zGain" then
    { p with zGain := newValue }
  else if parameterID = "horRotation" then
    { p with horRotation := newValue }
  else p

/-! ### processBlock -/

/-- The A-to-B matrix of `processBlock` (lines 197-227): the working buffer
after the four capsule signals of `buffer` (Front, Back, Left, Right on channels
0 to 3) have been combined into W, X, Y, Z on its channels 0, 3, 1, 2. -/
def encode (isWCombined : Bool) (foaChannelBuffer buffer : AudioBuffer K) : AudioBuffer K :=
  let numSamples := buffer.getNumSamples
  let readPointerFront := buffer.getReadPointer 0
  let readPointerBack := buffer.getReadPointer 1
  let readPointerLeft := buffer.getReadPointer 2
  let readPointerRight := buffer.getReadPointer 3
  let writePointerW := foaChannelBuffer.getWritePointer 0
  let writePointerX := foaChannelBuffer.getWritePointer 3
  let writePointerY := foaChannelBuffer.getWritePointer 1
  let writePointerZ := foaChannelBuffer.getWritePointer 2
  let writePointerW := FloatVectorOperations.copy writePointerW readPointerFront numSamples
  let writePointerW := FloatVectorOperations.add writePointerW readPointerBack numSamples
  let writePointerW :=
    if isWCombined then
      let w := FloatVectorOperations.add writePointerW readPointerLeft numSamples
      let w := FloatVectorOperations.add w readPointerRight numSamples
      FloatVectorOperations.multiply w (1 / 2) numSamples
    else writePointerW
  let writePointerX := FloatVectorOperations.copy writePointerX readPointerFront numSamples
  let writePointerX := FloatVectorOperations.subtract writePointerX readPointerBack numSamples
  let writePointerY := FloatVectorOperations.copy writePointerY readPointerLeft numSamples
  let writePointerY := FloatVectorOperations.subtract writePointerY readPointerRight numSamples
  let writePointerZ := FloatVectorOperations.copy writePointerZ readPointerLeft numSamples
  let writePointerZ := FloatVectorOperations.add writePointerZ readPointerRight numSamples
  let writePointerZ := FloatVectorOperations.subtract writePointerZ readPointerFront numSamples
  let writePointerZ := FloatVectorOperations.subtract writePointerZ readPointerBack numSamples
  (((foaChannelBuffer.store 0 writePointerW).store 3 writePointerX).store 1 writePointerY).store 2
    writePointerZ

/-- The filter bank of `processBlock` (lines 229-265), working in place on the
first `numSamples` samples of the working buffer: Z through the low shelf and
the Z convolution when differential equalization is on; W, X, Y through their
convolutions when coincident equalization is on, through their delay lines
otherwise. -/
def filterBank (p : AafoaCreatorAudioProcessor K J) (numSamples : ℕ) :
    AafoaCreatorAudioProcessor K J :=
  let p :=
    if p.doDifferentialZEqualization then
      let r := J.iirProcess p.iirLowShelf (p.foaChannelBuffer.getWritePointer 2) numSamples
      let r2 := J.convProcess p.zFilterConv r.2 numSamples
      { p with
        iirLowShelf := r.1
        zFilterConv := r2.1
        foaChannelBuffer := p.foaChannelBuffer.store 2 r2.2 }
    else p
  if p.doCoincPatternEqualization then
    let w := J.convProcess p.coincOmniFilterConv (p.foaChannelBuffer.getWritePointer 0) numSamples
    let x := J.convProcess p.coincXEightFilterConv (p.foaChannelBuffer.getWritePointer 3) numSamples
    let y := J.convProcess p.coincYEightFilterConv (p.foaChannelBuffer.getWritePointer 1) numSamples
    { p with
      coincOmniFilterConv := w.1
      coincXEightFilterConv := x.1
      coincYEightFilterConv := y.1
      foaChannelBuffer := ((p.foaChannelBuffer.store 0 w.2).store 3 x.2).store 1 y.2 }
  else
    let w := (p.delays 0).process (p.foaChannelBuffer.getWritePointer 0) numSamples
    let x := (p.delays 1).process (p.foaChannelBuffer.getWritePointer 3) numSamples
    let y := (p.delays 2).process (p.foaChannelBuffer.getWritePointer 1) numSamples
    { p with
      delays := fun k => if k = 0 then w.1 else if k = 1 then x.1 else y.1
      foaChannelBuffer := ((p.foaChannelBuffer.store 0 w.2).store 3 x.2).store 1 y.2 }

/-- The SN3D weighting of `processBlock` (lines 268-272). -/
def applySn3dWeighting (c : Constants K) (foaChannelBuffer : AudioBuffer K) (numSamples : ℕ) :
    AudioBuffer K :=
  let writePointerW := foaChannelBuffer.getWritePointer 0
  let writePointerX := foaChannelBuffer.getWritePointer 3
  let writePointerY := foaChannelBuffer.getWritePointer 1
  let writePointerZ := foaChannelBuffer.getWritePointer 2
  let writePointerW := FloatVectorOperations.multiply writePointerW c.SN3D_WEIGHT_0 numSamples
  let writePointerX := FloatVectorOperations.multiply writePointerX c.SN3D_WEIGHT_1 numSamples
  let writePointerY := FloatVectorOperations.multiply writePointerY c.SN3D_WEIGHT_1 numSamples
  let writePointerZ := FloatVectorOperations.multiply writePointerZ c.SN3D_WEIGHT_1 numSamples
  (((foaChannelBuffer.store 0 writePointerW).store 3 writePointerX).store 1 writePointerY).store 2
    writePointerZ

/-- The output step of `processBlock` (lines 274-294): `buffer` is cleared and,
when buffer and buses all have four channels, receives the working buffer in
FuMa order or channel by channel. -/
def writeToOutput (channelOrder : ℤ) (totalNumInputChannels totalNumOutputChannels : ℕ)
    (foaChannelBuffer buffer : AudioBuffer K) (numSamples : ℕ) : AudioBuffer K :=
  let buffer := buffer.clear
  if buffer.getNumChannels = 4 ∧ totalNumOutputChannels = 4 ∧ totalNumInputChannels = 4 then
    if channelOrder = eChannelOrder.FUMA then
      let buffer := buffer.copyFrom 0 0 foaChannelBuffer 0 0 numSamples
      let buffer := buffer.copyFrom 1 0 foaChannelBuffer 3 0 numSamples
      let buffer := buffer.copyFrom 2 0 foaChannelBuffer 1 0 numSamples
      buffer.copyFrom 3 0 foaChannelBuffer 2 0 numSamples
    else
      (List.range 4).foldl (fun b out => b.copyFrom out 0 foaChannelBuffer out 0 numSamples) buffer
  else buffer

/-- The normalization and reordering stage (lines 268-294): weighting followed
by the output step. The result is the working buffer and the output buffer. -/
def normalizeAndReorder (c : Constants K) (channelOrder : ℤ)
    (totalNumInputChannels totalNumOutputChannels : ℕ) (foaChannelBuffer buffer : AudioBuffer K)
    (numSamples : ℕ) : AudioBuffer K × AudioBuffer K :=
  let foa := applySn3dWeighting c foaChannelBuffer numSamples
  (foa, writeToOutput channelOrder totalNumInputChannels totalNumOutputChannels foa buffer
    numSamples)

/-- The call `processBlock (buffer, midiMessages)` (lines 182-296): the processor
after the block and the buffer handed back to the host. The assertion of line 188 is
a debug check and has no effect here; the MIDI buffer is not used. -/
def processBlock (c : Constants K) (p : AafoaCreatorAudioProcessor K J) (buffer : AudioBuffer K) :
    AafoaCreatorAudioProcessor K J × AudioBuffer K :=
  let numSamples := buffer.getNumSamples
  let p := { p with foaChannelBuffer := encode p.isWCombined p.foaChannelBuffer buffer }
  let p := filterBank p numSamples
  let r := normalizeAndReorder c p.channelOrder p.totalNumInputChannels p.totalNumOutputChannels
    p.foaChannelBuffer buffer numSamples
  ({ p with foaChannelBuffer := r.1 }, r.2)

end Processor

/-! ### Concrete instances for evaluation -/

/-- A stand-in for the `juce::dsp` library in which every filter is stateless
and leaves the samples unchanged; used only where a concrete library instance
is needed to evaluate the processor on an input. -/
def idDsp (K : Type) : JuceDsp K :=
  { IIRFilter := Unit
    Convolution := Unit
    exp := fun x => x
    iirPrepare := fun s _ => s
    iirReset := fun s => s
    iirSetCoefficients := fun s _ _ _ _ => s
    iirProcess := fun s x _ => (s, x)
    convPrepare := fun s _ => s
    convLoad := fun s _ _ _ => s
    convReset := fun s => s
    convProcess := fun s x _ => (s, x) }

/-- A block of four samples on four channels whose sixteen values differ:
channel `c` holds `10 * (c + 1) + i` at sample `i`. -/
def sampleBlock : AudioBuffer ℚ :=
  { numChannels := 4, numSamples := 4, data := fun c i => 10 * ((c : ℚ) + 1) + (i : ℚ) }

/-- A working buffer of four channels holding stale values. -/
def staleBuffer : AudioBuffer ℚ :=
  { numChannels := 4, numSamples := 8, data := fun _ _ => 7 }

/-- Header constants for evaluating the model on an input; the header itself is
not part of PluginProcessor.cpp, so the values are chosen here: an FIR of 512
taps designed at 48 kHz, `SN3D_WEIGHT_0 = 1`, a given `SN3D_WEIGHT_1`,
coefficient tables of zeros apart from a leading 1. The general theorems hold
for every value of the constants. -/
def headerConstants {K : Type} [Field K] (weight1 : K) : Constants K :=
  { FIR_LEN := 512
    FIR_SAMPLE_RATE := 48000
    SN3D_WEIGHT_0 := 1
    SN3D_WEIGHT_1 := weight1
    DIFF_Z_EIGHT_EQ_COEFFS := fun i => if i = 0 then 1 else 0
    COINC_EIGHT_EQ_COEFFS := fun i => if i = 0 then 1 else 0
    COINC_OMNI_EQ_COEFFS := fun i => if i = 0 then 1 else 0 }

/-- Header constants on the rationals, with 4/7 for `SN3D_WEIGHT_1`. -/
def trialConstants : Constants ℚ := headerConstants (4 / 7)

/-- A block of `numSamples` samples on four channels: a unit impulse at sample 0
of channel 0 (Front), zero elsewhere. -/
def impulseBlock (K : Type) [Field K] (numSamples : ℕ) : AudioBuffer K :=
  { numChannels := 4, numSamples := numSamples,
    data := fun c i => if c = 0 ∧ i = 0 then 1 else 0 }

/-- A newly constructed processor over the rationals with the stand-in library. -/
def trialProcessor : AafoaCreatorAudioProcessor ℚ (idDsp ℚ) :=
  AafoaCreatorAudioProcessor.new trialConstants () ()

/-- A newly prepared processor: the new processor after
`prepareToPlay (sampleRate, samplesPerBlock)`. -/
def preparedProcessor {K : Type} [Field K] {J : JuceDsp K} (c : Constants K)
    (iir0 : J.IIRFilter) (conv0 : J.Convolution) (sampleRate : ℚ) (samplesPerBlock : ℕ) :
    AafoaCreatorAudioProcessor K J :=
  prepareToPlay c (AafoaCreatorAudioProcessor.new c iir0 conv0) sampleRate samplesPerBlock

/-- The new processor over the rationals prepared at 480 Hz for blocks of 8
samples; the delay lines are then 2 samples long. -/
def trialPrepared : AafoaCreatorAudioProcessor ℚ (idDsp ℚ) :=
  preparedProcessor trialConstants () () 480 8

/-- The processor `trialPrepared` switched to FuMa order by the host. -/
def trialFuma : AafoaCreatorAudioProcessor ℚ (idDsp ℚ) :=
  parameterChanged trialPrepared "channelOrder" 1

/-! ### Host calls, block runs and invariants -/

section Drivers

variable {K : Type} [Field K] {J : JuceDsp K}

/-- A run of `parameterChanged` calls, first call first. -/
def parameterChangedAll (p : AafoaCreatorAudioProcessor K J) (calls : List (String × ℚ)) :
    AafoaCreatorAudioProcessor K J :=
  calls.foldl (fun q call => parameterChanged q call.1 call.2) p

/-- A call the host makes on the processor between blocks. -/
inductive Call where
  | parameterChanged (parameterID : String) (newValue : ℚ)
  | prepareToPlay (sampleRate : ℚ) (samplesPerBlock : ℕ)

/-- The processor after one host call. -/
def Call.apply (c : Constants K) (p : AafoaCreatorAudioProcessor K J) :
    Call → AafoaCreatorAudioProcessor K J
  | Call.parameterChanged parameterID newValue => AmbiCreator.parameterChanged p parameterID newValue
  | Call.prepareToPlay sampleRate samplesPerBlock =>
    AmbiCreator.prepareToPlay c p sampleRate samplesPerBlock

/-- The processor after a run of host calls, first call first. -/
def run (c : Constants K) (p : AafoaCreatorAudioProcessor K J) (calls : List Call) :
    AafoaCreatorAudioProcessor K J :=
  calls.foldl (Call.apply c) p

/-- A call as the parameter layout of the constructor allows it:
`diffEqualization` is declared an `AudioParameterBool` (line 13), whose value
is 0 or 1; every other call is unrestricted. -/
def Call.diffEqualizationIsBool : Call → Bool
  | Call.parameterChanged parameterID newValue =>
    if parameterID = "diffEqualization" then decide (newValue = 0 ∨ newValue = 1) else true
  | Call.prepareToPlay _ _ => true

/-- The invariant behind C4: the declared latency is 0 while differential Z
equalization is off. -/
def latencyInvariant (p : AafoaCreatorAudioProcessor K J) : Prop :=
  p.doDifferentialZEqualization = false → p.latencySamples = 0

/-- The host driving `processBlock` over consecutive blocks: the processor after
the last block and the buffers handed back, in order. -/
def processBlocks (c : Constants K) (p : AafoaCreatorAudioProcessor K J) :
    List (AudioBuffer K) → AafoaCreatorAudioProcessor K J × List (AudioBuffer K)
  | [] => (p, [])
  | buffer :: rest =>
    let r := processBlock c p buffer
    let rr := processBlocks c r.1 rest
    (rr.1, r.2 :: rr.2)

/-- The signal a run of blocks carries: `f buffer i` for each block in turn and
each sample index `i` below the length of the block. -/
def blockStream (f : AudioBuffer K → ℕ → K) (buffers : List (AudioBuffer K)) : List K :=
  buffers.flatMap (fun b => (List.range b.numSamples).map (f b))

/-- The number of samples a run of blocks carries on each channel. -/
def totalSamples (buffers : List (AudioBuffer K)) : ℕ :=
  (buffers.map AudioBuffer.numSamples).sum

/-- What the constructor fixes for good: the delay time `firLatencySec`, the
delay time of each delay line, and the four channels of each bus. -/
def constructionInvariant (c : Constants K) (p : AafoaCreatorAudioProcessor K J) : Prop :=
  p.firLatencySec = ((c.FIR_LEN : ℚ) / 2 - 1) / c.FIR_SAMPLE_RATE ∧
  (∀ k, (p.delays k).delayTimeSec = ((c.FIR_LEN : ℚ) / 2 - 1) / c.FIR_SAMPLE_RATE) ∧
  p.totalNumInputChannels = 4 ∧ p.totalNumOutputChannels = 4

end Drivers

/-! ## Theorems -/

/-! ### Facts that need no arithmetic on samples -/

section ControlTheorems

variable {K : Type} {J : JuceDsp K}

/-- The channel-by-channel copy loop of the ACN branch, unrolled. -/
theorem foldl_copy_range_four (foa b : AudioBuffer K) (n : ℕ) :
    (List.range 4).foldl (fun b out => b.copyFrom out 0 foa out 0 n) b =
      (((b.copyFrom 0 0 foa 0 0 n).copyFrom 1 0 foa 1 0 n).copyFrom 2 0 foa 2 0 n).copyFrom 3 0
        foa 3 0 n := by
  simp [List.range_succ]

/-- C7. Control-state frame of parameterChanged: for each of the seven
recognized ids and every value the result is the old state with only the field
named by the id replaced (for `diffEqualization`, that field and the declared
latency); the declared latency is unchanged for every id other than
`diffEqualization`; an unrecognized id changes nothing. -/
theorem parameterChanged_frame (p : AafoaCreatorAudioProcessor K J) (newValue : ℚ) :
    parameterChanged p "combinedW" newValue =
      { p with isWCombined := (parameterChanged p "combinedW" newValue).isWCombined } ∧
    parameterChanged p "diffEqualization" newValue =
      { p with
        doDifferentialZEqualization :=
          (parameterChanged p "diffEqualization" newValue).doDifferentialZEqualization
        latencySamples := (parameterChanged p "diffEqualization" newValue).latencySamples } ∧
    parameterChanged p "coincEqualization" newValue =
      { p with
        doCoincPatternEqualization :=
          (parameterChanged p "coincEqualization" newValue).doCoincPatternEqualization } ∧
    parameterChanged p "channelOrder" newValue =
      { p with channelOrder := (parameterChanged p "channelOrder" newValue).channelOrder } ∧
    parameterChanged p "outGain" newValue =
      { p with outGain := (parameterChanged p "outGain" newValue).outGain } ∧
    parameterChanged p "zGain" newValue =
      { p with zGain := (parameterChanged p "zGain" newValue).zGain } ∧
    parameterChanged p "horRotation" newValue =
      { p with horRotation := (parameterChanged p "horRotation" newValue).horRotation } ∧
    (∀ parameterID : String, parameterID ≠ "diffEqualization" →
      (parameterChanged p parameterID newValue).latencySamples = p.latencySamples) ∧
    (∀ parameterID : String,
      parameterID ∉ ["combinedW", "diffEqualization", "coincEqualization", "channelOrder",
        "outGain", "zGain", "horRotation"] →
      parameterChanged p parameterID newValue = p) := by
  refine ⟨?_, ?_, ?_, ?_, ?_, ?_, ?_, ?_, ?_⟩
  · simp [parameterChanged]
  · by_cases h : newValue = 0 <;> simp [parameterChanged, setLatencySamples, h]
  · simp [parameterChanged]
  · simp [parameterChanged]
  · simp [parameterChanged]
  · simp [parameterChanged]
  · simp [parameterChanged]
  · intro parameterID hne
    unfold parameterChanged
    simp only [hne, if_false]
    split_ifs <;> rfl
  · intro parameterID hnot
    simp only [List.mem_cons, List.mem_singleton, List.not_mem_nil, or_false, not_or] at hnot
    obtain ⟨h1, h2, h3, h4, h5, h6, h7⟩ := hnot
    simp [parameterChanged, h1, h2, h3, h4, h5, h6, h7]

/-- A call on an id other than `diffEqualization` leaves the declared latency
and the differential equalization flag as they are. -/
theorem parameterChanged_aux_latency (p : AafoaCreatorAudioProcessor K J) (parameterID : String)
    (newValue : ℚ) (hid : parameterID ≠ "diffEqualization") :
    (parameterChanged p parameterID newValue).latencySamples = p.latencySamples ∧
    (parameterChanged p parameterID newValue).doDifferentialZEqualization =
      p.doDifferentialZEqualization := by
  unfold parameterChanged
  simp only [hid, if_false]
  constructor <;> split_ifs <;> rfl

/-- A run of calls on the three inert ids replaces at most the three inert
fields. -/
theorem parameterChangedAll_inert (p : AafoaCreatorAudioProcessor K J)
    (calls : List (String × ℚ))
    (hids : ∀ call ∈ calls, call.1 ∈ ["outGain", "zGain", "horRotation"]) :
    ∃ g z r : ℚ, parameterChangedAll p calls =
      { p with outGain := g, zGain := z, horRotation := r } := by
  induction calls generalizing p with
  | nil => exact ⟨p.outGain, p.zGain, p.horRotation, rfl⟩
  | cons call rest ih =>
    have hrest : ∀ x ∈ rest, x.1 ∈ ["outGain", "zGain", "horRotation"] :=
      fun x hx => hids x (List.mem_cons_of_mem _ hx)
    obtain ⟨g, z, r, h⟩ := ih (parameterChanged p call.1 call.2) hrest
    have hcall := hids call (List.mem_cons_self _ _)
    simp only [List.mem_cons, List.mem_singleton, List.not_mem_nil, or_false] at hcall
    have hstep : parameterChangedAll p (call :: rest) =
        parameterChangedAll (parameterChanged p call.1 call.2) rest := rfl
    rw [hstep, h]
    rcases hcall with h1 | h1 | h1 <;> rw [h1] <;>
      exact ⟨g, z, r, by simp [parameterChanged]⟩

/-- Joining the block handed back now with what a later stretch hands back. -/
theorem take_append_take_drop (line block later : List K) (n m : ℕ) (hn : block.length = n) :
    (line ++ block).take n ++ ((line ++ block).drop n ++ later).take m =
      (line ++ (block ++ later)).take (n + m) := by
  have hle : n ≤ (line ++ block).length := by simp [hn]
  rw [List.take_add, ← List.append_assoc, List.take_append_of_le_length hle,
    List.drop_append_of_le_length hle]

/-- The call `parameterChanged` keeps what the constructor fixed. -/
theorem parameterChanged_construction (c : Constants K) (p : AafoaCreatorAudioProcessor K J)
    (parameterID : String) (newValue : ℚ) (hp : constructionInvariant c p) :
    constructionInvariant c (parameterChanged p parameterID newValue) := by
  unfold parameterChanged
  split_ifs <;> exact hp

/-- Whatever the header constants (an FIR of at least 3 taps, a positive design
rate), some positive sample rate makes truncation and rounding of
`firLatencySec * sr` differ: at `sr = FIR_SAMPLE_RATE / (FIR_LEN - 2)` the
product is 1/2. -/
theorem latency_round_mismatch (c : Constants K) (hlen : 3 ≤ c.FIR_LEN)
    (hrate : 0 < c.FIR_SAMPLE_RATE) :
    ∃ sr : ℚ, 0 < sr ∧
      staticCastInt (((c.FIR_LEN : ℚ) / 2 - 1) / c.FIR_SAMPLE_RATE * sr) ≠
        round (((c.FIR_LEN : ℚ) / 2 - 1) / c.FIR_SAMPLE_RATE * sr) := by
  have hL : (0 : ℚ) < (c.FIR_LEN : ℚ) - 2 := by
    have : (3 : ℚ) ≤ (c.FIR_LEN : ℚ) := by exact_mod_cast hlen
    linarith
  refine ⟨c.FIR_SAMPLE_RATE / ((c.FIR_LEN : ℚ) - 2), div_pos hrate hL, ?_⟩
  have hprod : ((c.FIR_LEN : ℚ) / 2 - 1) / c.FIR_SAMPLE_RATE *
      (c.FIR_SAMPLE_RATE / ((c.FIR_LEN : ℚ) - 2)) = 1 / 2 := by
    field_simp
    ring
  rw [hprod, round_eq]
  norm_num [staticCastInt, Int.floor_eq_iff]

/-- A value other than 0 and 1 for `diffEqualization` leaves the flag off and
declares the truncated latency. -/
theorem parameterChanged_nonbool (p : AafoaCreatorAudioProcessor K J) (newValue : ℚ)
    (h0 : newValue ≠ 0) (h1 : newValue ≠ 1) :
    (parameterChanged p "diffEqualization" newValue).doDifferentialZEqualization = false ∧
    getLatencySamples (parameterChanged p "diffEqualization" newValue) =
      staticCastInt (p.firLatencySec * p.currentSampleRate) := by
  simp [parameterChanged, setLatencySamples, getLatencySamples, h0, h1]

end ControlTheorems

/-! ### The signal path -/

section Theorems

variable {K : Type} [Field K] {J : JuceDsp K}

/-- The working buffer after the A-to-B matrix, channel by channel, below the
length of the block. -/
theorem encode_data (isWCombined : Bool) (foaChannelBuffer buffer : AudioBuffer K) (i : ℕ)
    (hi : i < buffer.numSamples) :
    (encode isWCombined foaChannelBuffer buffer).data 3 i = buffer.data 0 i - buffer.data 1 i ∧
    (encode isWCombined foaChannelBuffer buffer).data 1 i = buffer.data 2 i - buffer.data 3 i ∧
    (encode isWCombined foaChannelBuffer buffer).data 2 i =
      (buffer.data 2 i + buffer.data 3 i) - (buffer.data 0 i + buffer.data 1 i) ∧
    (encode isWCombined foaChannelBuffer buffer).data 0 i =
      if isWCombined then
        1 / 2 * (buffer.data 0 i + buffer.data 1 i + buffer.data 2 i + buffer.data 3 i)
      else buffer.data 0 i + buffer.data 1 i := by
  refine ⟨?_, ?_, ?_, ?_⟩
  · simp [encode, AudioBuffer.store, AudioBuffer.getReadPointer, AudioBuffer.getWritePointer,
      AudioBuffer.getNumSamples, FloatVectorOperations.copy, FloatVectorOperations.subtract, hi]
  · simp [encode, AudioBuffer.store, AudioBuffer.getReadPointer, AudioBuffer.getWritePointer,
      AudioBuffer.getNumSamples, FloatVectorOperations.copy, FloatVectorOperations.subtract, hi]
  · simp [encode, AudioBuffer.store, AudioBuffer.getReadPointer, AudioBuffer.getWritePointer,
      AudioBuffer.getNumSamples, FloatVectorOperations.copy, FloatVectorOperations.subtract,
      FloatVectorOperations.add, hi]
    ring
  · cases isWCombined
    · simp [encode, AudioBuffer.store, AudioBuffer.getReadPointer, AudioBuffer.getWritePointer,
        AudioBuffer.getNumSamples, FloatVectorOperations.copy, FloatVectorOperations.add, hi]
    · simp [encode, AudioBuffer.store, AudioBuffer.getReadPointer, AudioBuffer.getWritePointer,
        AudioBuffer.getNumSamples, FloatVectorOperations.copy, FloatVectorOperations.add,
        FloatVectorOperations.multiply, hi]
      ring

/-- C1. A-to-B encoding stage of processBlock: for every input block and every
sample index `i` below its length, the working buffer after the matrix and
before any filter or delay holds `X = Front - Back` (channel 3),
`Y = Left - Right` (channel 1), `Z = (Left + Right) - (Front + Back)`
(channel 2) and, on channel 0, `W = Front + Back` when `isWCombined` is off and
`W = 1/2 * (Front + Back + Left + Right)` when it is on; the working buffer
`processBlock` hands to the filter bank is this one. -/
theorem encode_matrix (c : Constants K) (p : AafoaCreatorAudioProcessor K J)
    (buffer : AudioBuffer K) (i : ℕ) (hi : i < buffer.numSamples) :
    (encode p.isWCombined p.foaChannelBuffer buffer).data 3 i =
      buffer.data 0 i - buffer.data 1 i ∧
    (encode p.isWCombined p.foaChannelBuffer buffer).data 1 i =
      buffer.data 2 i - buffer.data 3 i ∧
    (encode p.isWCombined p.foaChannelBuffer buffer).data 2 i =
      (buffer.data 2 i + buffer.data 3 i) - (buffer.data 0 i + buffer.data 1 i) ∧
    (encode p.isWCombined p.foaChannelBuffer buffer).data 0 i =
      (if p.isWCombined then
        1 / 2 * (buffer.data 0 i + buffer.data 1 i + buffer.data 2 i + buffer.data 3 i)
      else buffer.data 0 i + buffer.data 1 i) ∧
    processBlock c p buffer =
      (let q := filterBank
          { p with foaChannelBuffer := encode p.isWCombined p.foaChannelBuffer buffer }
          buffer.numSamples
        let r := normalizeAndReorder c q.channelOrder q.totalNumInputChannels
          q.totalNumOutputChannels q.foaChannelBuffer buffer buffer.numSamples
        ({ q with foaChannelBuffer := r.1 }, r.2)) := by
  obtain ⟨h1, h2, h3, h4⟩ := encode_data p.isWCombined p.foaChannelBuffer buffer i hi
  exact ⟨h1, h2, h3, h4, rfl⟩

/-- Witness of C1 on `sampleBlock` at sample 2, with `isWCombined` on. -/
theorem encode_matrix_witness :
    2 < sampleBlock.numSamples ∧
    (encode true staleBuffer sampleBlock).data 3 2 = sampleBlock.data 0 2 - sampleBlock.data 1 2 ∧
    (encode true staleBuffer sampleBlock).data 1 2 = sampleBlock.data 2 2 - sampleBlock.data 3 2 ∧
    (encode true staleBuffer sampleBlock).data 2 2 =
      (sampleBlock.data 2 2 + sampleBlock.data 3 2) -
        (sampleBlock.data 0 2 + sampleBlock.data 1 2) ∧
    (encode true staleBuffer sampleBlock).data 0 2 =
      if true = true then
        1 / 2 * (sampleBlock.data 0 2 + sampleBlock.data 1 2 + sampleBlock.data 2 2 +
          sampleBlock.data 3 2)
      else sampleBlock.data 0 2 + sampleBlock.data 1 2 :=
  ⟨by decide,
    let h := encode_matrix trialConstants
      { trialProcessor with isWCombined := true, foaChannelBuffer := staleBuffer } sampleBlock 2
      (by decide)
    ⟨h.1, h.2.1, h.2.2.1, h.2.2.2.1⟩⟩

/-- The normalization and reordering stage alone, for every content of the
working buffer: output channels in ACN and FuMa order below `numSamples`, and
independence of what the buffer held on entry. -/
theorem normalizeAndReorder_data (c : Constants K) (channelOrder : ℤ)
    (foaChannelBuffer buffer : AudioBuffer K) (numSamples i : ℕ)
    (hch : buffer.numChannels = 4) (hi : i < numSamples) :
    (channelOrder = eChannelOrder.ACN →
      (normalizeAndReorder c channelOrder 4 4 foaChannelBuffer buffer numSamples).2.data 0 i =
        c.SN3D_WEIGHT_0 * foaChannelBuffer.data 0 i ∧
      (normalizeAndReorder c channelOrder 4 4 foaChannelBuffer buffer numSamples).2.data 1 i =
        c.SN3D_WEIGHT_1 * foaChannelBuffer.data 1 i ∧
      (normalizeAndReorder c channelOrder 4 4 foaChannelBuffer buffer numSamples).2.data 2 i =
        c.SN3D_WEIGHT_1 * foaChannelBuffer.data 2 i ∧
      (normalizeAndReorder c channelOrder 4 4 foaChannelBuffer buffer numSamples).2.data 3 i =
        c.SN3D_WEIGHT_1 * foaChannelBuffer.data 3 i) ∧
    (channelOrder = eChannelOrder.FUMA →
      (normalizeAndReorder c channelOrder 4 4 foaChannelBuffer buffer numSamples).2.data 0 i =
        c.SN3D_WEIGHT_0 * foaChannelBuffer.data 0 i ∧
      (normalizeAndReorder c channelOrder 4 4 foaChannelBuffer buffer numSamples).2.data 1 i =
        c.SN3D_WEIGHT_1 * foaChannelBuffer.data 3 i ∧
      (normalizeAndReorder c channelOrder 4 4 foaChannelBuffer buffer numSamples).2.data 2 i =
        c.SN3D_WEIGHT_1 * foaChannelBuffer.data 1 i ∧
      (normalizeAndReorder c channelOrder 4 4 foaChannelBuffer buffer numSamples).2.data 3 i =
        c.SN3D_WEIGHT_1 * foaChannelBuffer.data 2 i) ∧
    (∀ buffer2 : AudioBuffer K, buffer2.numChannels = 4 →
      (normalizeAndReorder c channelOrder 4 4 foaChannelBuffer buffer2 numSamples).2.data =
        (normalizeAndReorder c channelOrder 4 4 foaChannelBuffer buffer numSamples).2.data) := by
  refine ⟨?_, ?_, ?_⟩
  · intro h
    subst h
    simp only [normalizeAndReorder, writeToOutput, foldl_copy_range_four]
    simp [applySn3dWeighting, AudioBuffer.copyFrom, AudioBuffer.clear, AudioBuffer.store, AudioBuffer.getNumChannels,
      AudioBuffer.getWritePointer, FloatVectorOperations.multiply, eChannelOrder.ACN,
      eChannelOrder.FUMA, hch, hi, mul_comm]
  · intro h
    subst h
    simp [normalizeAndReorder, writeToOutput, applySn3dWeighting,
      AudioBuffer.copyFrom, AudioBuffer.clear, AudioBuffer.store, AudioBuffer.getNumChannels,
      AudioBuffer.getWritePointer, FloatVectorOperations.multiply,
      eChannelOrder.FUMA, hch, hi, mul_comm]
  · intro buffer2 h2
    simp only [normalizeAndReorder, writeToOutput, foldl_copy_range_four]
    simp [AudioBuffer.copyFrom, AudioBuffer.clear, AudioBuffer.getNumChannels, hch, h2]
    split <;> rfl

/-- The filter bank leaves the control fields, the declared latency and the
channel counts as they are. -/
theorem filterBank_control (p : AafoaCreatorAudioProcessor K J) (n : ℕ) :
    (filterBank p n).isWCombined = p.isWCombined ∧
    (filterBank p n).doDifferentialZEqualization = p.doDifferentialZEqualization ∧
    (filterBank p n).doCoincPatternEqualization = p.doCoincPatternEqualization ∧
    (filterBank p n).channelOrder = p.channelOrder ∧
    (filterBank p n).outGain = p.outGain ∧
    (filterBank p n).zGain = p.zGain ∧
    (filterBank p n).horRotation = p.horRotation ∧
    (filterBank p n).latencySamples = p.latencySamples ∧
    (filterBank p n).currentSampleRate = p.currentSampleRate ∧
    (filterBank p n).firLatencySec = p.firLatencySec ∧
    (filterBank p n).totalNumInputChannels = p.totalNumInputChannels ∧
    (filterBank p n).totalNumOutputChannels = p.totalNumOutputChannels := by
  unfold filterBank
  cases hz : p.doDifferentialZEqualization <;> cases hc : p.doCoincPatternEqualization <;>
    simp [hz, hc]

/-- With differential equalization off the filter bank does not touch the Z
channel (channel 2) of the working buffer. -/
theorem filterBank_z_bypass (p : AafoaCreatorAudioProcessor K J) (n : ℕ)
    (hz : p.doDifferentialZEqualization = false) :
    (filterBank p n).foaChannelBuffer.data 2 = p.foaChannelBuffer.data 2 := by
  unfold filterBank
  cases hc : p.doCoincPatternEqualization <;> simp [hz, hc, AudioBuffer.store]

/-- Channel `k` of the output in terms of the weighted working buffer, FuMa. -/
theorem writeToOutput_fuma (channelOrder : ℤ) (tin tout : ℕ) (foa buffer : AudioBuffer K)
    (n i : ℕ) (hord : channelOrder = eChannelOrder.FUMA) (hin : tin = 4) (hout : tout = 4)
    (hch : buffer.numChannels = 4) (hi : i < n) :
    (writeToOutput channelOrder tin tout foa buffer n).data 0 i = foa.data 0 i ∧
    (writeToOutput channelOrder tin tout foa buffer n).data 1 i = foa.data 3 i ∧
    (writeToOutput channelOrder tin tout foa buffer n).data 2 i = foa.data 1 i ∧
    (writeToOutput channelOrder tin tout foa buffer n).data 3 i = foa.data 2 i := by
  subst hin hout hord
  simp [writeToOutput, AudioBuffer.copyFrom, AudioBuffer.clear, AudioBuffer.getNumChannels,
    hch, hi]

/-- Channel `k` of the output in terms of the weighted working buffer, for a
channel order other than FuMa. -/
theorem writeToOutput_acn (channelOrder : ℤ) (tin tout : ℕ) (foa buffer : AudioBuffer K)
    (n i : ℕ) (hord : channelOrder ≠ eChannelOrder.FUMA) (hin : tin = 4) (hout : tout = 4)
    (hch : buffer.numChannels = 4) (hi : i < n) :
    (writeToOutput channelOrder tin tout foa buffer n).data 0 i = foa.data 0 i ∧
    (writeToOutput channelOrder tin tout foa buffer n).data 1 i = foa.data 1 i ∧
    (writeToOutput channelOrder tin tout foa buffer n).data 2 i = foa.data 2 i ∧
    (writeToOutput channelOrder tin tout foa buffer n).data 3 i = foa.data 3 i := by
  subst hin hout
  simp only [writeToOutput, foldl_copy_range_four]
  simp [AudioBuffer.copyFrom, AudioBuffer.clear, AudioBuffer.getNumChannels, hch, hi, hord]

/-- The weighted working buffer, channel by channel, below `n`. -/
theorem applySn3dWeighting_data (c : Constants K) (foa : AudioBuffer K) (n i : ℕ) (hi : i < n) :
    (applySn3dWeighting c foa n).data 0 i = c.SN3D_WEIGHT_0 * foa.data 0 i ∧
    (applySn3dWeighting c foa n).data 1 i = c.SN3D_WEIGHT_1 * foa.data 1 i ∧
    (applySn3dWeighting c foa n).data 2 i = c.SN3D_WEIGHT_1 * foa.data 2 i ∧
    (applySn3dWeighting c foa n).data 3 i = c.SN3D_WEIGHT_1 * foa.data 3 i := by
  simp [applySn3dWeighting, AudioBuffer.store, AudioBuffer.getWritePointer,
    FloatVectorOperations.multiply, hi, mul_comm]

/-- The buffer handed back by `processBlock`, as the output step applied to the
weighted result of the filter bank on the encoded block. -/
theorem processBlock_output (c : Constants K) (p : AafoaCreatorAudioProcessor K J)
    (buffer : AudioBuffer K) :
    (processBlock c p buffer).2 =
      writeToOutput p.channelOrder p.totalNumInputChannels p.totalNumOutputChannels
        (applySn3dWeighting c
          (filterBank { p with foaChannelBuffer := encode p.isWCombined p.foaChannelBuffer buffer }
            buffer.numSamples).foaChannelBuffer buffer.numSamples)
        buffer buffer.numSamples := by
  simp [processBlock, normalizeAndReorder, AudioBuffer.getNumSamples, filterBank_control]

/-- The Z output channel of one block with differential equalization off. -/
theorem processBlock_z_channel (c : Constants K) (p : AafoaCreatorAudioProcessor K J)
    (buffer : AudioBuffer K) (i : ℕ)
    (hz : p.doDifferentialZEqualization = false)
    (hch : buffer.numChannels = 4) (hin : p.totalNumInputChannels = 4)
    (hout : p.totalNumOutputChannels = 4) (hi : i < buffer.numSamples) :
    (p.channelOrder = eChannelOrder.ACN →
      (processBlock c p buffer).2.data 2 i =
        c.SN3D_WEIGHT_1 *
          ((buffer.data 2 i + buffer.data 3 i) - (buffer.data 0 i + buffer.data 1 i))) ∧
    (p.channelOrder = eChannelOrder.FUMA →
      (processBlock c p buffer).2.data 3 i =
        c.SN3D_WEIGHT_1 *
          ((buffer.data 2 i + buffer.data 3 i) - (buffer.data 0 i + buffer.data 1 i))) := by
  have henc := (encode_data p.isWCombined p.foaChannelBuffer buffer i hi).2.2.1
  have hfb := filterBank_z_bypass
    { p with foaChannelBuffer := encode p.isWCombined p.foaChannelBuffer buffer }
    buffer.numSamples hz
  rw [processBlock_output]
  constructor
  · intro h
    have hord : p.channelOrder ≠ eChannelOrder.FUMA := by
      rw [h]; decide
    rw [(writeToOutput_acn p.channelOrder _ _ _ buffer _ i hord hin hout hch hi).2.2.1,
      (applySn3dWeighting_data c _ _ i hi).2.2.1, hfb, henc]
  · intro h
    rw [(writeToOutput_fuma p.channelOrder _ _ _ buffer _ i h hin hout hch hi).2.2.2,
      (applySn3dWeighting_data c _ _ i hi).2.2.1, hfb, henc]

/-- What `processBlock` leaves outside the four channels and the `N` samples it
writes: zero. -/
theorem processBlock_output_cleared (c : Constants K) (p : AafoaCreatorAudioProcessor K J)
    (buffer : AudioBuffer K) (ch j : ℕ) (hout : 4 ≤ ch ∨ buffer.numSamples ≤ j) :
    (processBlock c p buffer).2.data ch j = 0 := by
  rw [processBlock_output]
  simp only [writeToOutput, foldl_copy_range_four]
  have h0 : ¬ (ch = 0 ∧ j < buffer.numSamples) := by omega
  have h1 : ¬ (ch = 1 ∧ j < buffer.numSamples) := by omega
  have h2 : ¬ (ch = 2 ∧ j < buffer.numSamples) := by omega
  have h3 : ¬ (ch = 3 ∧ j < buffer.numSamples) := by omega
  split_ifs <;> simp [AudioBuffer.copyFrom, AudioBuffer.clear, h0, h1, h2, h3]

/-- C2. Normalization and reordering stage of processBlock: with four channels
on buffer and buses, whatever the working buffer holds after the filter bank
(W, Y, Z, X on channels 0, 1, 2, 3), for every sample index `i < N` the buffer
`processBlock` hands back holds in ACN order `(w0 * W, w1 * Y, w1 * Z, w1 * X)`
and in FuMa order `(w0 * W, w1 * X, w1 * Y, w1 * Z)` on channels 0 to 3, where
`w0`, `w1` are `SN3D_WEIGHT_0`, `SN3D_WEIGHT_1`; every other sample of it is
zero, and it is what the stage computes from the working buffer alone, whatever
the buffer held on entry: nothing of the input block remains. -/
theorem processBlock_normalized_output (c : Constants K) (p : AafoaCreatorAudioProcessor K J)
    (buffer : AudioBuffer K) (i : ℕ) (hch : buffer.numChannels = 4)
    (hin : p.totalNumInputChannels = 4) (hout : p.totalNumOutputChannels = 4)
    (hi : i < buffer.numSamples) :
    (p.channelOrder = eChannelOrder.ACN →
      (processBlock c p buffer).2.data 0 i = c.SN3D_WEIGHT_0 *
        (filterBank { p with foaChannelBuffer := encode p.isWCombined p.foaChannelBuffer buffer }
          buffer.numSamples).foaChannelBuffer.data 0 i ∧
      (processBlock c p buffer).2.data 1 i = c.SN3D_WEIGHT_1 *
        (filterBank { p with foaChannelBuffer := encode p.isWCombined p.foaChannelBuffer buffer }
          buffer.numSamples).foaChannelBuffer.data 1 i ∧
      (processBlock c p buffer).2.data 2 i = c.SN3D_WEIGHT_1 *
        (filterBank { p with foaChannelBuffer := encode p.isWCombined p.foaChannelBuffer buffer }
          buffer.numSamples).foaChannelBuffer.data 2 i ∧
      (processBlock c p buffer).2.data 3 i = c.SN3D_WEIGHT_1 *
        (filterBank { p with foaChannelBuffer := encode p.isWCombined p.foaChannelBuffer buffer }
          buffer.numSamples).foaChannelBuffer.data 3 i) ∧
    (p.channelOrder = eChannelOrder.FUMA →
      (processBlock c p buffer).2.data 0 i = c.SN3D_WEIGHT_0 *
        (filterBank { p with foaChannelBuffer := encode p.isWCombined p.foaChannelBuffer buffer }
          buffer.numSamples).foaChannelBuffer.data 0 i ∧
      (processBlock c p buffer).2.data 1 i = c.SN3D_WEIGHT_1 *
        (filterBank { p with foaChannelBuffer := encode p.isWCombined p.foaChannelBuffer buffer }
          buffer.numSamples).foaChannelBuffer.data 3 i ∧
      (processBlock c p buffer).2.data 2 i = c.SN3D_WEIGHT_1 *
        (filterBank { p with foaChannelBuffer := encode p.isWCombined p.foaChannelBuffer buffer }
          buffer.numSamples).foaChannelBuffer.data 1 i ∧
      (processBlock c p buffer).2.data 3 i = c.SN3D_WEIGHT_1 *
        (filterBank { p with foaChannelBuffer := encode p.isWCombined p.foaChannelBuffer buffer }
          buffer.numSamples).foaChannelBuffer.data 2 i) ∧
    (∀ ch j, 4 ≤ ch ∨ buffer.numSamples ≤ j → (processBlock c p buffer).2.data ch j = 0) ∧
    (∀ buffer2 : AudioBuffer K, buffer2.numChannels = 4 →
      (processBlock c p buffer).2.data =
        (normalizeAndReorder c p.channelOrder 4 4
          (filterBank { p with foaChannelBuffer := encode p.isWCombined p.foaChannelBuffer buffer }
            buffer.numSamples).foaChannelBuffer buffer2 buffer.numSamples).2.data) := by
  have hstage := normalizeAndReorder_data c p.channelOrder
    (filterBank { p with foaChannelBuffer := encode p.isWCombined p.foaChannelBuffer buffer }
      buffer.numSamples).foaChannelBuffer buffer buffer.numSamples i hch hi
  have hpb : (processBlock c p buffer).2 =
      (normalizeAndReorder c p.channelOrder 4 4
        (filterBank { p with foaChannelBuffer := encode p.isWCombined p.foaChannelBuffer buffer }
          buffer.numSamples).foaChannelBuffer buffer buffer.numSamples).2 := by
    rw [processBlock_output, hin, hout]
    rfl
  refine ⟨?_, ?_, ?_, ?_⟩
  · intro h
    rw [hpb]
    exact hstage.1 h
  · intro h
    rw [hpb]
    exact hstage.2.1 h
  · intro ch j hcj
    exact processBlock_output_cleared c p buffer ch j hcj
  · intro buffer2 h2
    rw [hpb]
    exact (hstage.2.2 buffer2 h2).symm

/-- C6. Z bypass: with differential equalization off, four channels on buffer
and buses, for every input block, every prior processor state and every sample
index `i < N`, the Z output channel (2 in ACN order, 3 in FuMa order) holds
`SN3D_WEIGHT_1 * ((Left_i + Right_i) - (Front_i + Back_i))` at index `i`:
the encoded Z of the same index, whatever the filter and delay states. -/
theorem processBlock_z_bypass (c : Constants K) (p : AafoaCreatorAudioProcessor K J)
    (buffer : AudioBuffer K) (i : ℕ)
    (hz : p.doDifferentialZEqualization = false)
    (hch : buffer.numChannels = 4) (hin : p.totalNumInputChannels = 4)
    (hout : p.totalNumOutputChannels = 4) (hi : i < buffer.numSamples) :
    (p.channelOrder = eChannelOrder.ACN →
      (processBlock c p buffer).2.data 2 i =
        c.SN3D_WEIGHT_1 *
          ((buffer.data 2 i + buffer.data 3 i) - (buffer.data 0 i + buffer.data 1 i))) ∧
    (p.channelOrder = eChannelOrder.FUMA →
      (processBlock c p buffer).2.data 3 i =
        c.SN3D_WEIGHT_1 *
          ((buffer.data 2 i + buffer.data 3 i) - (buffer.data 0 i + buffer.data 1 i))) :=
  processBlock_z_channel c p buffer i hz hch hin hout hi

/-- Witness of C6 on a new processor and `sampleBlock`, sample 3. -/
theorem processBlock_z_bypass_witness :
    (trialProcessor.doDifferentialZEqualization = false ∧ sampleBlock.numChannels = 4 ∧
      trialProcessor.totalNumInputChannels = 4 ∧ trialProcessor.totalNumOutputChannels = 4 ∧
      3 < sampleBlock.numSamples ∧ trialProcessor.channelOrder = eChannelOrder.ACN) ∧
    (processBlock trialConstants trialProcessor sampleBlock).2.data 2 3 =
      trialConstants.SN3D_WEIGHT_1 *
        ((sampleBlock.data 2 3 + sampleBlock.data 3 3) -
          (sampleBlock.data 0 3 + sampleBlock.data 1 3)) :=
  ⟨⟨rfl, rfl, rfl, rfl, by decide, rfl⟩,
    (processBlock_z_bypass trialConstants trialProcessor sampleBlock 3 rfl rfl rfl rfl
      (by decide)).1 rfl⟩

/-- C9 (as the code has it). Index permutation of the reordering step: with the
working buffer holding W, Y, Z, X on channels 0, 1, 2, 3, ACN output places
them at output indices (0, 1, 2, 3) and FuMa output places them at output
indices (0, 2, 3, 1): channel 1 (Y) lands on output 2, channel 2 (Z) on
output 3 and channel 3 (X) on output 1. -/
theorem writeToOutput_permutation (foa buffer : AudioBuffer K) (n i : ℕ)
    (hch : buffer.numChannels = 4) (hi : i < n) :
    ((writeToOutput eChannelOrder.ACN 4 4 foa buffer n).data 0 i = foa.data 0 i ∧
      (writeToOutput eChannelOrder.ACN 4 4 foa buffer n).data 1 i = foa.data 1 i ∧
      (writeToOutput eChannelOrder.ACN 4 4 foa buffer n).data 2 i = foa.data 2 i ∧
      (writeToOutput eChannelOrder.ACN 4 4 foa buffer n).data 3 i = foa.data 3 i) ∧
    ((writeToOutput eChannelOrder.FUMA 4 4 foa buffer n).data 0 i = foa.data 0 i ∧
      (writeToOutput eChannelOrder.FUMA 4 4 foa buffer n).data 2 i = foa.data 1 i ∧
      (writeToOutput eChannelOrder.FUMA 4 4 foa buffer n).data 3 i = foa.data 2 i ∧
      (writeToOutput eChannelOrder.FUMA 4 4 foa buffer n).data 1 i = foa.data 3 i) := by
  have ha := writeToOutput_acn eChannelOrder.ACN 4 4 foa buffer n i (by decide) rfl rfl hch hi
  have hf := writeToOutput_fuma eChannelOrder.FUMA 4 4 foa buffer n i rfl rfl rfl hch hi
  exact ⟨ha, hf.1, hf.2.2.1, hf.2.2.2, hf.2.1⟩

/-- Witness of C9 (as the code has it) on `sampleBlock` as working buffer. -/
theorem writeToOutput_permutation_witness :
    (staleBuffer.numChannels = 4 ∧ 0 < 4) ∧
    (writeToOutput eChannelOrder.FUMA 4 4 sampleBlock staleBuffer 4).data 2 0 =
      sampleBlock.data 1 0 :=
  ⟨⟨rfl, by decide⟩,
    (writeToOutput_permutation sampleBlock staleBuffer 4 0 rfl (by decide)).2.2.1⟩

/-- Counterexample to C9 as stated: in FuMa mode the working channels of
`sampleBlock` hold 20 (channel 1, Y), 30 (channel 2, Z) and 40 (channel 3, X)
at sample 0, and the output holds 40, 20, 30 on channels 1, 2, 3: Y is not on
output 3, Z is not on output 1, X is not on output 2. -/
theorem writeToOutput_fuma_counterexample :
    (sampleBlock.data 1 0 = 20 ∧ sampleBlock.data 2 0 = 30 ∧ sampleBlock.data 3 0 = 40) ∧
    ((writeToOutput eChannelOrder.FUMA 4 4 sampleBlock staleBuffer 4).data 1 0 = 40 ∧
      (writeToOutput eChannelOrder.FUMA 4 4 sampleBlock staleBuffer 4).data 2 0 = 20 ∧
      (writeToOutput eChannelOrder.FUMA 4 4 sampleBlock staleBuffer 4).data 3 0 = 30) ∧
    ((writeToOutput eChannelOrder.FUMA 4 4 sampleBlock staleBuffer 4).data 3 0 ≠
        sampleBlock.data 1 0 ∧
      (writeToOutput eChannelOrder.FUMA 4 4 sampleBlock staleBuffer 4).data 1 0 ≠
        sampleBlock.data 2 0 ∧
      (writeToOutput eChannelOrder.FUMA 4 4 sampleBlock staleBuffer 4).data 2 0 ≠
        sampleBlock.data 3 0) := by
  have hf := writeToOutput_fuma eChannelOrder.FUMA 4 4 sampleBlock staleBuffer 4 0 rfl rfl rfl rfl
    (by decide)
  rw [hf.2.1, hf.2.2.1, hf.2.2.2]
  norm_num [sampleBlock]

/-- The three inert controls commute with the filter bank. -/
theorem filterBank_inert (p : AafoaCreatorAudioProcessor K J) (n : ℕ) (g z r : ℚ) :
    filterBank { p with outGain := g, zGain := z, horRotation := r } n =
      { filterBank p n with outGain := g, zGain := z, horRotation := r } := by
  unfold filterBank
  cases hz : p.doDifferentialZEqualization <;> cases hc : p.doCoincPatternEqualization <;>
    simp [hz, hc]

/-- The three inert controls commute with `processBlock`. -/
theorem processBlock_inert (c : Constants K) (p : AafoaCreatorAudioProcessor K J)
    (buffer : AudioBuffer K) (g z r : ℚ) :
    processBlock c { p with outGain := g, zGain := z, horRotation := r } buffer =
      ({ (processBlock c p buffer).1 with outGain := g, zGain := z, horRotation := r },
        (processBlock c p buffer).2) := by
  have h := filterBank_inert
    { p with foaChannelBuffer := encode p.isWCombined p.foaChannelBuffer buffer }
    buffer.getNumSamples g z r
  simp only [processBlock]
  rw [h]

/-- C10. Inert controls: two processor states that differ at most in
`outGain`, `zGain` and `horRotation` produce, on the same input block, the same
output block and successor states that again differ at most in those three
fields (same working buffer, filter and delay states), and declare the same
latency; a run of `parameterChanged` calls on those three ids changes neither
the output block nor the declared latency. -/
theorem inert_controls_noninterference (c : Constants K) (p : AafoaCreatorAudioProcessor K J)
    (buffer : AudioBuffer K) (g z r : ℚ) (calls : List (String × ℚ))
    (hids : ∀ call ∈ calls, call.1 ∈ ["outGain", "zGain", "horRotation"]) :
    (processBlock c { p with outGain := g, zGain := z, horRotation := r } buffer).2 =
      (processBlock c p buffer).2 ∧
    (processBlock c { p with outGain := g, zGain := z, horRotation := r } buffer).1 =
      { (processBlock c p buffer).1 with outGain := g, zGain := z, horRotation := r } ∧
    getLatencySamples { p with outGain := g, zGain := z, horRotation := r } =
      getLatencySamples p ∧
    (processBlock c (parameterChangedAll p calls) buffer).2 = (processBlock c p buffer).2 ∧
    getLatencySamples (parameterChangedAll p calls) = getLatencySamples p := by
  obtain ⟨g2, z2, r2, h⟩ := parameterChangedAll_inert p calls hids
  refine ⟨?_, ?_, rfl, ?_, ?_⟩
  · rw [processBlock_inert]
  · rw [processBlock_inert]
  · rw [h, processBlock_inert]
  · rw [h]; rfl

/-- Witness of C10: three calls on the inert ids before one block. -/
theorem inert_controls_noninterference_witness :
    (∀ call ∈ [("outGain", (-6 : ℚ)), ("horRotation", 90), ("zGain", 3)],
      call.1 ∈ ["outGain", "zGain", "horRotation"]) ∧
    (processBlock trialConstants
      (parameterChangedAll trialProcessor [("outGain", -6), ("horRotation", 90), ("zGain", 3)])
      sampleBlock).2 = (processBlock trialConstants trialProcessor sampleBlock).2 :=
  ⟨by simp,
    (inert_controls_noninterference trialConstants trialProcessor sampleBlock 0 0 0
      [("outGain", -6), ("horRotation", 90), ("zGain", 3)] (by simp)).2.2.2.1⟩

/-- One host call whose `diffEqualization` value is 0 or 1 keeps the latency
invariant. -/
theorem latencyInvariant_step (c : Constants K) (p : AafoaCreatorAudioProcessor K J) (call : Call)
    (hcall : call.diffEqualizationIsBool = true) (hp : latencyInvariant p) :
    latencyInvariant (Call.apply c p call) := by
  cases call with
  | parameterChanged parameterID newValue =>
    intro hoff
    by_cases hid : parameterID = "diffEqualization"
    · subst hid
      simp only [Call.diffEqualizationIsBool, if_true, decide_eq_true_eq] at hcall
      rcases hcall with h0 | h1
      · subst h0
        simp [Call.apply, parameterChanged, setLatencySamples]
      · subst h1
        simp [Call.apply, parameterChanged, setLatencySamples] at hoff
    · have hframe := (parameterChanged_aux_latency p parameterID newValue hid)
      rw [Call.apply, hframe.1]
      apply hp
      rw [Call.apply, hframe.2] at hoff
      exact hoff
  | prepareToPlay sampleRate samplesPerBlock =>
    intro hoff
    cases hz : p.doDifferentialZEqualization
    · have := hp hz
      simp [Call.apply, prepareToPlay, setLowShelfCoefficients, hz, this]
    · simp [Call.apply, prepareToPlay, setLowShelfCoefficients, setLatencySamples, hz] at hoff

/-- A run of host calls whose `diffEqualization` values are 0 or 1 keeps the
latency invariant. -/
theorem latencyInvariant_run (c : Constants K) (calls : List Call)
    (p : AafoaCreatorAudioProcessor K J)
    (hcalls : ∀ call ∈ calls, call.diffEqualizationIsBool = true) (hp : latencyInvariant p) :
    latencyInvariant (run c p calls) := by
  induction calls generalizing p with
  | nil => exact hp
  | cons call rest ih =>
    have hstep : run c p (call :: rest) = run c (Call.apply c p call) rest := rfl
    rw [hstep]
    exact ih (Call.apply c p call) (fun x hx => hcalls x (List.mem_cons_of_mem _ hx))
      (latencyInvariant_step c p call (hcalls call (List.mem_cons_self _ _)) hp)

/-- C4 (as the code has it). Latency invariant: in every state reached from the
newly constructed processor by a run of `parameterChanged` and `prepareToPlay`
calls in which each value passed for `diffEqualization` is 0 or 1 (any id and
value otherwise), the declared latency is 0 whenever the Z-equalization flag is
off; and `parameterChanged ("diffEqualization", 0)` sets it to 0 in that same
call, from any state. -/
theorem latency_zero_when_off (c : Constants K) (iir0 : J.IIRFilter) (conv0 : J.Convolution)
    (calls : List Call) (hcalls : ∀ call ∈ calls, call.diffEqualizationIsBool = true)
    (hoff : (run c (AafoaCreatorAudioProcessor.new c iir0 conv0)
      calls).doDifferentialZEqualization = false) :
    getLatencySamples (run c (AafoaCreatorAudioProcessor.new c iir0 conv0) calls) = 0 ∧
    ∀ p : AafoaCreatorAudioProcessor K J,
      getLatencySamples (parameterChanged p "diffEqualization" 0) = 0 ∧
      (parameterChanged p "diffEqualization" 0).doDifferentialZEqualization = false := by
  constructor
  · exact latencyInvariant_run c calls (AafoaCreatorAudioProcessor.new c iir0 conv0) hcalls
      (fun _ => rfl) hoff
  · intro p
    simp [parameterChanged, setLatencySamples, getLatencySamples]

/-- Witness of C4 (as the code has it): Z equalization switched on, a
`prepareToPlay` at 44.1 kHz, a gain change, Z equalization switched off. -/
theorem latency_zero_when_off_witness :
    ((∀ call ∈ [Call.parameterChanged "diffEqualization" 1, Call.prepareToPlay 44100 512,
        Call.parameterChanged "outGain" (7 / 2), Call.parameterChanged "diffEqualization" 0],
        call.diffEqualizationIsBool = true) ∧
      (run trialConstants trialProcessor
        [Call.parameterChanged "diffEqualization" 1, Call.prepareToPlay 44100 512,
          Call.parameterChanged "outGain" (7 / 2),
          Call.parameterChanged "diffEqualization" 0]).doDifferentialZEqualization = false) ∧
    getLatencySamples (run trialConstants trialProcessor
      [Call.parameterChanged "diffEqualization" 1, Call.prepareToPlay 44100 512,
        Call.parameterChanged "outGain" (7 / 2), Call.parameterChanged "diffEqualization" 0]) = 0 :=
  ⟨⟨by simp [Call.diffEqualizationIsBool],
      by simp [run, Call.apply, parameterChanged, prepareToPlay, setLowShelfCoefficients,
        setLatencySamples, trialProcessor, AafoaCreatorAudioProcessor.new]⟩,
    (latency_zero_when_off (J := idDsp ℚ) trialConstants () ()
      [Call.parameterChanged "diffEqualization" 1, Call.prepareToPlay 44100 512,
        Call.parameterChanged "outGain" (7 / 2), Call.parameterChanged "diffEqualization" 0]
      (by simp [Call.diffEqualizationIsBool])
      (by simp [run, Call.apply, parameterChanged, prepareToPlay, setLowShelfCoefficients,
        setLatencySamples, AafoaCreatorAudioProcessor.new])).1⟩

/-- C3 (as the code has it). For every sample rate `sr`, after
`parameterChanged ("diffEqualization", 1)` at current sample rate `sr`, and
after `prepareToPlay (sr, n)` with Z equalization enabled, the declared latency
is `static_cast<int> (firLatencySec * sr)` with
`firLatencySec = (FIR_LEN/2 - 1) / FIR_SAMPLE_RATE`: the product with its
fractional part discarded, which for a non-negative product is its floor. -/
theorem latency_is_truncation (c : Constants K) (p : AafoaCreatorAudioProcessor K J) (sr : ℚ)
    (n : ℕ) (hfir : p.firLatencySec = ((c.FIR_LEN : ℚ) / 2 - 1) / c.FIR_SAMPLE_RATE) :
    (p.currentSampleRate = sr →
      getLatencySamples (parameterChanged p "diffEqualization" 1) =
        staticCastInt (((c.FIR_LEN : ℚ) / 2 - 1) / c.FIR_SAMPLE_RATE * sr)) ∧
    (p.doDifferentialZEqualization = true →
      getLatencySamples (prepareToPlay c p sr n) =
        staticCastInt (((c.FIR_LEN : ℚ) / 2 - 1) / c.FIR_SAMPLE_RATE * sr)) ∧
    (0 ≤ ((c.FIR_LEN : ℚ) / 2 - 1) / c.FIR_SAMPLE_RATE * sr →
      staticCastInt (((c.FIR_LEN : ℚ) / 2 - 1) / c.FIR_SAMPLE_RATE * sr) =
        ⌊((c.FIR_LEN : ℚ) / 2 - 1) / c.FIR_SAMPLE_RATE * sr⌋) := by
  refine ⟨?_, ?_, ?_⟩
  · intro hsr
    simp [parameterChanged, setLatencySamples, getLatencySamples, hfir, hsr]
  · intro hon
    simp [prepareToPlay, setLowShelfCoefficients, setLatencySamples, getLatencySamples, hfir, hon]
  · intro h
    simp [staticCastInt, h]

/-- Witness of C3 (as the code has it): the new processor at 48 kHz. -/
theorem latency_is_truncation_witness :
    trialProcessor.firLatencySec =
      ((trialConstants.FIR_LEN : ℚ) / 2 - 1) / trialConstants.FIR_SAMPLE_RATE ∧
    getLatencySamples (parameterChanged trialProcessor "diffEqualization" 1) =
      staticCastInt (((trialConstants.FIR_LEN : ℚ) / 2 - 1) / trialConstants.FIR_SAMPLE_RATE *
        48000) :=
  ⟨rfl, (latency_is_truncation trialConstants trialProcessor 48000 512 rfl).1 rfl⟩

/-- Counterexample to C3 as stated: with an FIR of 512 taps designed at 48 kHz
and a current sample rate of 88200 Hz, `firLatencySec * sr = 468.5625`; the
latency declared after `parameterChanged ("diffEqualization", 1)`, and after
`prepareToPlay (88200, 512)` with Z equalization on, is 468, while
`round (firLatencySec * sr)` is 469. -/
theorem latency_round_counterexample :
    (prepareToPlay trialConstants trialProcessor 88200 512).currentSampleRate = 88200 ∧
    getLatencySamples (parameterChanged (prepareToPlay trialConstants trialProcessor 88200 512)
      "diffEqualization" 1) = 468 ∧
    getLatencySamples (prepareToPlay trialConstants
      (parameterChanged trialProcessor "diffEqualization" 1) 88200 512) = 468 ∧
    round (((trialConstants.FIR_LEN : ℚ) / 2 - 1) / trialConstants.FIR_SAMPLE_RATE * 88200) =
      469 := by
  refine ⟨?_, ?_, ?_, ?_⟩
  · simp [prepareToPlay, setLowShelfCoefficients, trialProcessor, AafoaCreatorAudioProcessor.new]
  · simp [parameterChanged, prepareToPlay, setLowShelfCoefficients, setLatencySamples,
      getLatencySamples, trialProcessor, AafoaCreatorAudioProcessor.new, trialConstants, headerConstants]
    norm_num [staticCastInt, Int.floor_eq_iff]
  · simp [parameterChanged, prepareToPlay, setLowShelfCoefficients, setLatencySamples,
      getLatencySamples, trialProcessor, AafoaCreatorAudioProcessor.new, trialConstants, headerConstants]
    norm_num [staticCastInt, Int.floor_eq_iff]
  · rw [round_eq]
    norm_num [trialConstants, headerConstants, Int.floor_eq_iff]

/-- Counterexample to C4 as stated: on the new processor (sample rate 48000,
FIR of 512 taps at 48 kHz) the call `parameterChanged ("diffEqualization", 1/2)`
leaves the Z-equalization flag off and declares a latency of 255 samples. -/
theorem latency_invariant_counterexample :
    (run trialConstants trialProcessor
      [Call.parameterChanged "diffEqualization" (1 / 2)]).doDifferentialZEqualization = false ∧
    getLatencySamples (run trialConstants trialProcessor
      [Call.parameterChanged "diffEqualization" (1 / 2)]) = 255 := by
  constructor
  · simp [run, Call.apply, parameterChanged, setLatencySamples, trialProcessor,
      AafoaCreatorAudioProcessor.new]
  · simp [run, Call.apply, parameterChanged, setLatencySamples, getLatencySamples,
      trialProcessor, AafoaCreatorAudioProcessor.new, trialConstants, headerConstants]
    norm_num [staticCastInt, Int.floor_eq_iff]

/-- The block a delay line hands back: the first `num` samples of the samples in
flight followed by the block. -/
theorem Delay.process_block (d : Delay K) (samples : ℕ → K) (num : ℕ) :
    (List.range num).map (d.process samples num).2 =
      (d.line ++ (List.range num).map samples).take num := by
  apply List.ext_getElem
  · simp
  · intro i h1 h2
    have hi : i < num := by simpa using h1
    have hlen : i < (d.line ++ (List.range num).map samples).length := by
      simp; omega
    simp [Delay.process, hi, List.getElem_take, List.getElem?_eq_getElem hlen]

/-- What stays in a delay line after a block. -/
theorem Delay.process_line (d : Delay K) (samples : ℕ → K) (num : ℕ) :
    (d.process samples num).1.line = (d.line ++ (List.range num).map samples).drop num := rfl

/-- One call of `processBlock` leaves the control fields and the channel counts
as they are. -/
theorem processBlock_control (c : Constants K) (p : AafoaCreatorAudioProcessor K J)
    (buffer : AudioBuffer K) :
    (processBlock c p buffer).1.isWCombined = p.isWCombined ∧
    (processBlock c p buffer).1.doDifferentialZEqualization = p.doDifferentialZEqualization ∧
    (processBlock c p buffer).1.doCoincPatternEqualization = p.doCoincPatternEqualization ∧
    (processBlock c p buffer).1.channelOrder = p.channelOrder ∧
    (processBlock c p buffer).1.totalNumInputChannels = p.totalNumInputChannels ∧
    (processBlock c p buffer).1.totalNumOutputChannels = p.totalNumOutputChannels := by
  simp [processBlock, filterBank_control]

/-- With coincident equalization off, the filter bank sends channels 0, 3, 1 of
the working buffer (W, X, Y) through delay lines 0, 1, 2. -/
theorem filterBank_delay_path (p : AafoaCreatorAudioProcessor K J) (n : ℕ)
    (hc : p.doCoincPatternEqualization = false) :
    ((filterBank p n).delays 0 = ((p.delays 0).process (p.foaChannelBuffer.data 0) n).1 ∧
      (filterBank p n).delays 1 = ((p.delays 1).process (p.foaChannelBuffer.data 3) n).1 ∧
      (filterBank p n).delays 2 = ((p.delays 2).process (p.foaChannelBuffer.data 1) n).1) ∧
    ((filterBank p n).foaChannelBuffer.data 0 =
        ((p.delays 0).process (p.foaChannelBuffer.data 0) n).2 ∧
      (filterBank p n).foaChannelBuffer.data 3 =
        ((p.delays 1).process (p.foaChannelBuffer.data 3) n).2 ∧
      (filterBank p n).foaChannelBuffer.data 1 =
        ((p.delays 2).process (p.foaChannelBuffer.data 1) n).2) := by
  unfold filterBank
  cases hz : p.doDifferentialZEqualization <;>
    simp [hz, hc, AudioBuffer.store, AudioBuffer.getWritePointer]

/-- The buffer handed back has the length of the buffer handed in. -/
theorem processBlock_numSamples (c : Constants K) (p : AafoaCreatorAudioProcessor K J)
    (buffer : AudioBuffer K) : (processBlock c p buffer).2.numSamples = buffer.numSamples := by
  rw [processBlock_output]
  simp only [writeToOutput, foldl_copy_range_four]
  split_ifs <;> rfl

/-- One block through one delay line, in list form: a signal `o` that is `w`
times what the line hands back, for a block that agrees with `s2` below `n`. -/
theorem Delay.process_weighted (d : Delay K) (s s2 o : ℕ → K) (w : K) (n : ℕ)
    (hs : ∀ i < n, s i = s2 i) (ho : ∀ i < n, o i = w * (d.process s n).2 i) :
    (List.range n).map o = ((d.line ++ (List.range n).map s2).take n).map (fun x => w * x) ∧
    (d.process s n).1.line = (d.line ++ (List.range n).map s2).drop n := by
  have hmap : (List.range n).map s = (List.range n).map s2 :=
    List.map_congr_left (fun i hi => hs i (List.mem_range.mp hi))
  constructor
  · rw [← hmap, ← Delay.process_block, List.map_map]
    exact List.map_congr_left (fun i hi => ho i (List.mem_range.mp hi))
  · rw [Delay.process_line, hmap]

/-- A run of blocks through delay line `k`, given what one block does: the
signal handed back is `w` times the samples in flight followed by the signal
handed in, cut to the length of the run; the rest stays in the line. -/
theorem processBlocks_stream (c : Constants K) (k : Fin 3) (w : K)
    (out f : AudioBuffer K → ℕ → K) (Inv : AafoaCreatorAudioProcessor K J → Prop)
    (hInv : ∀ q b, Inv q → b.numChannels = 4 → Inv (processBlock c q b).1)
    (hstep : ∀ q b, Inv q → b.numChannels = 4 →
      (List.range b.numSamples).map (out (processBlock c q b).2) =
        (((q.delays k).line ++ (List.range b.numSamples).map (f b)).take b.numSamples).map
          (fun x => w * x) ∧
      ((processBlock c q b).1.delays k).line =
        ((q.delays k).line ++ (List.range b.numSamples).map (f b)).drop b.numSamples)
    (buffers : List (AudioBuffer K)) (hch : ∀ b ∈ buffers, b.numChannels = 4)
    (p : AafoaCreatorAudioProcessor K J) (hp : Inv p) :
    blockStream out (processBlocks c p buffers).2 =
      (((p.delays k).line ++ blockStream f buffers).take (totalSamples buffers)).map
        (fun x => w * x) ∧
    ((processBlocks c p buffers).1.delays k).line =
      ((p.delays k).line ++ blockStream f buffers).drop (totalSamples buffers) := by
  induction buffers generalizing p with
  | nil => simp [processBlocks, blockStream, totalSamples]
  | cons b rest ih =>
    have hb : b.numChannels = 4 := hch b (List.mem_cons_self _ _)
    obtain ⟨h1, h2⟩ := hstep p b hp hb
    obtain ⟨ih1, ih2⟩ := ih (fun x hx => hch x (List.mem_cons_of_mem _ hx))
      (processBlock c p b).1 (hInv p b hp hb)
    have hlen : ((List.range b.numSamples).map (f b)).length = b.numSamples := by simp
    have hstream : blockStream f (b :: rest) =
        (List.range b.numSamples).map (f b) ++ blockStream f rest := by
      simp [blockStream]
    have htotal : totalSamples (b :: rest) = b.numSamples + totalSamples rest := by
      simp [totalSamples]
    constructor
    · have hout : blockStream out (processBlocks c p (b :: rest)).2 =
          (List.range b.numSamples).map (out (processBlock c p b).2) ++
            blockStream out (processBlocks c (processBlock c p b).1 rest).2 := by
        simp [processBlocks, blockStream, processBlock_numSamples]
      rw [hout, h1, ih1, h2, hstream, htotal, ← List.map_append,
        take_append_take_drop _ _ _ _ _ hlen]
    · have hline : (processBlocks c p (b :: rest)).1 =
          (processBlocks c (processBlock c p b).1 rest).1 := rfl
      have hle : b.numSamples ≤ ((p.delays k).line ++ (List.range b.numSamples).map (f b)).length := by
        simp
      rw [hline, ih2, h2, hstream, htotal, ← List.drop_append_of_le_length hle, List.drop_drop,
        List.append_assoc]

/-- With coincident equalization off and four channels on buffer and buses, the
output of one block at sample `i < N`: channel 0 is `SN3D_WEIGHT_0` times what
delay line 0 hands back for the encoded W; the X channel (1 in FuMa order, 3
otherwise) and the Y channel (2 in FuMa order, 1 otherwise) are
`SN3D_WEIGHT_1` times what delay lines 1 and 2 hand back for the encoded X and
Y. -/
theorem processBlock_delayed_output (c : Constants K) (p : AafoaCreatorAudioProcessor K J)
    (buffer : AudioBuffer K) (i : ℕ) (hc : p.doCoincPatternEqualization = false)
    (hin : p.totalNumInputChannels = 4) (hout : p.totalNumOutputChannels = 4)
    (hch : buffer.numChannels = 4) (hi : i < buffer.numSamples) :
    (processBlock c p buffer).2.data 0 i =
      c.SN3D_WEIGHT_0 * ((p.delays 0).process
        ((encode p.isWCombined p.foaChannelBuffer buffer).data 0) buffer.numSamples).2 i ∧
    (processBlock c p buffer).2.data (if p.channelOrder = eChannelOrder.FUMA then 1 else 3) i =
      c.SN3D_WEIGHT_1 * ((p.delays 1).process
        ((encode p.isWCombined p.foaChannelBuffer buffer).data 3) buffer.numSamples).2 i ∧
    (processBlock c p buffer).2.data (if p.channelOrder = eChannelOrder.FUMA then 2 else 1) i =
      c.SN3D_WEIGHT_1 * ((p.delays 2).process
        ((encode p.isWCombined p.foaChannelBuffer buffer).data 1) buffer.numSamples).2 i := by
  have hfb := (filterBank_delay_path
    { p with foaChannelBuffer := encode p.isWCombined p.foaChannelBuffer buffer }
    buffer.numSamples hc).2
  have hw := applySn3dWeighting_data c
    (filterBank { p with foaChannelBuffer := encode p.isWCombined p.foaChannelBuffer buffer }
      buffer.numSamples).foaChannelBuffer buffer.numSamples i hi
  rw [processBlock_output]
  by_cases hord : p.channelOrder = eChannelOrder.FUMA
  · have ho := writeToOutput_fuma p.channelOrder p.totalNumInputChannels p.totalNumOutputChannels
      (applySn3dWeighting c
        (filterBank { p with foaChannelBuffer := encode p.isWCombined p.foaChannelBuffer buffer }
          buffer.numSamples).foaChannelBuffer buffer.numSamples)
      buffer buffer.numSamples i hord hin hout hch hi
    rw [if_pos hord, if_pos hord, ho.1, ho.2.1, ho.2.2.1, hw.1, hw.2.2.2, hw.2.1, hfb.1, hfb.2.1,
      hfb.2.2]
    exact ⟨rfl, rfl, rfl⟩
  · have ho := writeToOutput_acn p.channelOrder p.totalNumInputChannels p.totalNumOutputChannels
      (applySn3dWeighting c
        (filterBank { p with foaChannelBuffer := encode p.isWCombined p.foaChannelBuffer buffer }
          buffer.numSamples).foaChannelBuffer buffer.numSamples)
      buffer buffer.numSamples i hord hin hout hch hi
    rw [if_neg hord, if_neg hord, ho.1, ho.2.2.2, ho.2.1, hw.1, hw.2.2.2, hw.2.1, hfb.1, hfb.2.1,
      hfb.2.2]
    exact ⟨rfl, rfl, rfl⟩

/-- The call `prepareToPlay` keeps what the constructor fixed. -/
theorem prepareToPlay_construction (c : Constants K) (p : AafoaCreatorAudioProcessor K J)
    (sampleRate : ℚ) (samplesPerBlock : ℕ) (hp : constructionInvariant c p) :
    constructionInvariant c (prepareToPlay c p sampleRate samplesPerBlock) := by
  obtain ⟨h1, h2, h3, h4⟩ := hp
  unfold prepareToPlay
  cases hz : p.doDifferentialZEqualization <;>
    simp [constructionInvariant, setLowShelfCoefficients, setLatencySamples, Delay.prepare,
      Delay.configure, hz, h1, h2, h3, h4]

/-- Every state reached from the new processor keeps what the constructor
fixed. -/
theorem run_construction (c : Constants K) (calls : List Call)
    (p : AafoaCreatorAudioProcessor K J) (hp : constructionInvariant c p) :
    constructionInvariant c (run c p calls) := by
  induction calls generalizing p with
  | nil => exact hp
  | cons call rest ih =>
    have hstep : run c p (call :: rest) = run c (Call.apply c p call) rest := rfl
    rw [hstep]
    apply ih
    cases call with
    | parameterChanged parameterID newValue =>
      exact parameterChanged_construction c p parameterID newValue hp
    | prepareToPlay sampleRate samplesPerBlock =>
      exact prepareToPlay_construction c p sampleRate samplesPerBlock hp

/-- The new processor: what the constructor fixes. -/
theorem new_construction (c : Constants K) (iir0 : J.IIRFilter) (conv0 : J.Convolution) :
    constructionInvariant c (AafoaCreatorAudioProcessor.new c iir0 conv0 :
      AafoaCreatorAudioProcessor K J) := by
  simp [constructionInvariant, AafoaCreatorAudioProcessor.new, Delay.setDelayTime,
    Delay.configure]

/-- After `prepareToPlay (sr, n)` each delay line keeps its delay time, has the
length `static_cast<int> (delayTime * sr)` and is silent; control fields and
channel counts are as before. -/
theorem prepareToPlay_delays (c : Constants K) (p : AafoaCreatorAudioProcessor K J)
    (sampleRate : ℚ) (samplesPerBlock : ℕ) :
    (∀ k, ((prepareToPlay c p sampleRate samplesPerBlock).delays k).delayTimeSec =
        (p.delays k).delayTimeSec ∧
      ((prepareToPlay c p sampleRate samplesPerBlock).delays k).delayInSamples =
        (staticCastInt ((p.delays k).delayTimeSec * sampleRate)).toNat ∧
      ((prepareToPlay c p sampleRate samplesPerBlock).delays k).line =
        List.replicate (staticCastInt ((p.delays k).delayTimeSec * sampleRate)).toNat 0) ∧
    (prepareToPlay c p sampleRate samplesPerBlock).isWCombined = p.isWCombined ∧
    (prepareToPlay c p sampleRate samplesPerBlock).doCoincPatternEqualization =
      p.doCoincPatternEqualization ∧
    (prepareToPlay c p sampleRate samplesPerBlock).doDifferentialZEqualization =
      p.doDifferentialZEqualization ∧
    (prepareToPlay c p sampleRate samplesPerBlock).channelOrder = p.channelOrder := by
  unfold prepareToPlay
  cases hz : p.doDifferentialZEqualization <;>
    simp [setLowShelfCoefficients, setLatencySamples, Delay.prepare, Delay.configure, hz]

/-- With coincident equalization off, one block leaves in delay lines 0, 1, 2
what `Delay.process` leaves for the encoded W, X, Y. -/
theorem processBlock_delays (c : Constants K) (p : AafoaCreatorAudioProcessor K J)
    (buffer : AudioBuffer K) (hc : p.doCoincPatternEqualization = false) :
    (processBlock c p buffer).1.delays 0 = ((p.delays 0).process
      ((encode p.isWCombined p.foaChannelBuffer buffer).data 0) buffer.numSamples).1 ∧
    (processBlock c p buffer).1.delays 1 = ((p.delays 1).process
      ((encode p.isWCombined p.foaChannelBuffer buffer).data 3) buffer.numSamples).1 ∧
    (processBlock c p buffer).1.delays 2 = ((p.delays 2).process
      ((encode p.isWCombined p.foaChannelBuffer buffer).data 1) buffer.numSamples).1 := by
  have h := (filterBank_delay_path
    { p with foaChannelBuffer := encode p.isWCombined p.foaChannelBuffer buffer }
    buffer.numSamples hc).1
  exact h

/-- A run of blocks with coincident equalization off, from any state with four
channels on the buses: each of W, X, Y comes out as its weight times the
samples in flight in its delay line followed by the encoded signal. -/
theorem processBlocks_delayed (c : Constants K) (p : AafoaCreatorAudioProcessor K J)
    (buffers : List (AudioBuffer K)) (hc : p.doCoincPatternEqualization = false)
    (hin : p.totalNumInputChannels = 4) (hout : p.totalNumOutputChannels = 4)
    (hch : ∀ b ∈ buffers, b.numChannels = 4) :
    blockStream (fun b => b.data 0) (processBlocks c p buffers).2 =
      (((p.delays 0).line ++
        blockStream (fun b i =>
          if p.isWCombined then 1 / 2 * (b.data 0 i + b.data 1 i + b.data 2 i + b.data 3 i)
          else b.data 0 i + b.data 1 i) buffers).take (totalSamples buffers)).map
        (fun x => c.SN3D_WEIGHT_0 * x) ∧
    blockStream (fun b => b.data (if p.channelOrder = eChannelOrder.FUMA then 1 else 3))
        (processBlocks c p buffers).2 =
      (((p.delays 1).line ++
        blockStream (fun b i => b.data 0 i - b.data 1 i) buffers).take (totalSamples buffers)).map
        (fun x => c.SN3D_WEIGHT_1 * x) ∧
    blockStream (fun b => b.data (if p.channelOrder = eChannelOrder.FUMA then 2 else 1))
        (processBlocks c p buffers).2 =
      (((p.delays 2).line ++
        blockStream (fun b i => b.data 2 i - b.data 3 i) buffers).take (totalSamples buffers)).map
        (fun x => c.SN3D_WEIGHT_1 * x) := by
  have hInv : ∀ (q : AafoaCreatorAudioProcessor K J) (b : AudioBuffer K),
      (q.doCoincPatternEqualization = false ∧ q.isWCombined = p.isWCombined ∧
        q.channelOrder = p.channelOrder ∧ q.totalNumInputChannels = 4 ∧
        q.totalNumOutputChannels = 4) → b.numChannels = 4 →
      ((processBlock c q b).1.doCoincPatternEqualization = false ∧
        (processBlock c q b).1.isWCombined = p.isWCombined ∧
        (processBlock c q b).1.channelOrder = p.channelOrder ∧
        (processBlock c q b).1.totalNumInputChannels = 4 ∧
        (processBlock c q b).1.totalNumOutputChannels = 4) := by
    intro q b hq _
    obtain ⟨h1, _, h3, h4, h5, h6⟩ := processBlock_control c q b
    exact ⟨h3.trans hq.1, h1.trans hq.2.1, h4.trans hq.2.2.1, h5.trans hq.2.2.2.1,
      h6.trans hq.2.2.2.2⟩
  have hp : p.doCoincPatternEqualization = false ∧ p.isWCombined = p.isWCombined ∧
      p.channelOrder = p.channelOrder ∧ p.totalNumInputChannels = 4 ∧
      p.totalNumOutputChannels = 4 := ⟨hc, rfl, rfl, hin, hout⟩
  refine ⟨?_, ?_, ?_⟩
  · refine (processBlocks_stream c 0 c.SN3D_WEIGHT_0 (fun b => b.data 0) _ _ hInv ?_ buffers hch
      p hp).1
    intro q b hq hb
    rw [(processBlock_delays c q b hq.1).1]
    apply Delay.process_weighted
    · intro i hi
      rw [(encode_data q.isWCombined q.foaChannelBuffer b i hi).2.2.2, hq.2.1]
    · intro i hi
      exact (processBlock_delayed_output c q b i hq.1 hq.2.2.2.1 hq.2.2.2.2 hb hi).1
  · refine (processBlocks_stream c 1 c.SN3D_WEIGHT_1
      (fun b => b.data (if p.channelOrder = eChannelOrder.FUMA then 1 else 3)) _ _ hInv ?_
      buffers hch p hp).1
    intro q b hq hb
    rw [(processBlock_delays c q b hq.1).2.1]
    apply Delay.process_weighted
    · intro i hi
      rw [(encode_data q.isWCombined q.foaChannelBuffer b i hi).1]
    · intro i hi
      rw [← hq.2.2.1]
      exact (processBlock_delayed_output c q b i hq.1 hq.2.2.2.1 hq.2.2.2.2 hb hi).2.1
  · refine (processBlocks_stream c 2 c.SN3D_WEIGHT_1
      (fun b => b.data (if p.channelOrder = eChannelOrder.FUMA then 2 else 1)) _ _ hInv ?_
      buffers hch p hp).1
    intro q b hq hb
    rw [(processBlock_delays c q b hq.1).2.2]
    apply Delay.process_weighted
    · intro i hi
      rw [(encode_data q.isWCombined q.foaChannelBuffer b i hi).2.1]
    · intro i hi
      rw [← hq.2.2.1]
      exact (processBlock_delayed_output c q b i hq.1 hq.2.2.2.1 hq.2.2.2.2 hb hi).2.2

/-- C5. Delay compensation: in a state that keeps what the constructor fixed,
with coincident equalization off, after `prepareToPlay (sr, n)` all three delay
lines are configured with the one delay time
`firLatencySec = (FIR_LEN/2 - 1) / FIR_SAMPLE_RATE` and have the length
`d = static_cast<int> (firLatencySec * sr)`, the latency declared for Z
equalization at `sr`; over any run of blocks each of W (output 0), X (output 1
in FuMa order, 3 otherwise) and Y (output 2 in FuMa order, 1 otherwise) comes
out as its SN3D weight times the encoded signal delayed by `d` samples:
`d` zeros, then the encoded samples, cut to the length of the run. -/
theorem delay_compensation (c : Constants K) (p : AafoaCreatorAudioProcessor K J) (sr : ℚ)
    (n : ℕ) (buffers : List (AudioBuffer K)) (hp : constructionInvariant c p)
    (hc : p.doCoincPatternEqualization = false) (hch : ∀ b ∈ buffers, b.numChannels = 4) :
    p.firLatencySec = ((c.FIR_LEN : ℚ) / 2 - 1) / c.FIR_SAMPLE_RATE ∧
    (∀ k, ((prepareToPlay c p sr n).delays k).delayTimeSec = p.firLatencySec ∧
      ((prepareToPlay c p sr n).delays k).delayInSamples =
        (staticCastInt (p.firLatencySec * sr)).toNat) ∧
    (p.doDifferentialZEqualization = true →
      getLatencySamples (prepareToPlay c p sr n) = staticCastInt (p.firLatencySec * sr)) ∧
    blockStream (fun b => b.data 0) (processBlocks c (prepareToPlay c p sr n) buffers).2 =
      ((List.replicate (staticCastInt (p.firLatencySec * sr)).toNat 0 ++
        blockStream (fun b i =>
          if p.isWCombined then 1 / 2 * (b.data 0 i + b.data 1 i + b.data 2 i + b.data 3 i)
          else b.data 0 i + b.data 1 i) buffers).take (totalSamples buffers)).map
        (fun x => c.SN3D_WEIGHT_0 * x) ∧
    blockStream (fun b => b.data (if p.channelOrder = eChannelOrder.FUMA then 1 else 3))
        (processBlocks c (prepareToPlay c p sr n) buffers).2 =
      ((List.replicate (staticCastInt (p.firLatencySec * sr)).toNat 0 ++
        blockStream (fun b i => b.data 0 i - b.data 1 i) buffers).take (totalSamples buffers)).map
        (fun x => c.SN3D_WEIGHT_1 * x) ∧
    blockStream (fun b => b.data (if p.channelOrder = eChannelOrder.FUMA then 2 else 1))
        (processBlocks c (prepareToPlay c p sr n) buffers).2 =
      ((List.replicate (staticCastInt (p.firLatencySec * sr)).toNat 0 ++
        blockStream (fun b i => b.data 2 i - b.data 3 i) buffers).take (totalSamples buffers)).map
        (fun x => c.SN3D_WEIGHT_1 * x) := by
  obtain ⟨hfir, hdel, hin, hout⟩ := hp
  obtain ⟨hd, hw, hcoinc, _, hord⟩ := prepareToPlay_delays c p sr n
  obtain ⟨_, _, hin2, hout2⟩ := prepareToPlay_construction c p sr n ⟨hfir, hdel, hin, hout⟩
  have hstream := processBlocks_delayed c (prepareToPlay c p sr n) buffers (hcoinc.trans hc)
    hin2 hout2 hch
  rw [hw, hord, (hd 0).2.2, (hd 1).2.2, (hd 2).2.2, hdel 0, hdel 1, hdel 2, ← hfir] at hstream
  refine ⟨hfir, ?_, ?_, hstream⟩
  · intro k
    rw [(hd k).1, (hd k).2.1, hdel k, hfir]
    exact ⟨rfl, rfl⟩
  · intro hon
    simp [prepareToPlay, setLowShelfCoefficients, setLatencySamples, getLatencySamples, hon]

/-- A silent delay line of length `m`: the block handed back is `m` zeros
followed by the block handed in. -/
theorem Delay.process_silent (d : Delay K) (samples : ℕ → K) (num m i : ℕ)
    (hline : d.line = List.replicate m 0) (hi : i < num) :
    (d.process samples num).2 i = if i < m then 0 else samples (i - m) := by
  simp only [Delay.process, hi, if_true, hline]
  by_cases him : i < m
  · rw [if_pos him, List.getD_append _ _ _ _ (by simpa using him)]
    simp [List.getD_eq_getElem?_getD, him]
  · rw [if_neg him, List.getD_append_right _ _ _ _ (by simpa using Nat.le_of_not_lt him)]
    have hlt : i - m < num := by omega
    simp [List.getD_eq_getElem?_getD, hlt]

/-- The newly prepared processor: flags off, ACN order, four channels on the
buses, three silent delay lines of length
`static_cast<int> (firLatencySec * sr)`. -/
theorem prepared_new (c : Constants K) (iir0 : J.IIRFilter) (conv0 : J.Convolution) (sr : ℚ)
    (n : ℕ) :
    (prepareToPlay c (AafoaCreatorAudioProcessor.new c iir0 conv0) sr n).isWCombined = false ∧
    (prepareToPlay c (AafoaCreatorAudioProcessor.new c iir0 conv0) sr
      n).doDifferentialZEqualization = false ∧
    (prepareToPlay c (AafoaCreatorAudioProcessor.new c iir0 conv0) sr
      n).doCoincPatternEqualization = false ∧
    (prepareToPlay c (AafoaCreatorAudioProcessor.new c iir0 conv0) sr n).channelOrder =
      eChannelOrder.ACN ∧
    (prepareToPlay c (AafoaCreatorAudioProcessor.new c iir0 conv0) sr
      n).totalNumInputChannels = 4 ∧
    (prepareToPlay c (AafoaCreatorAudioProcessor.new c iir0 conv0) sr
      n).totalNumOutputChannels = 4 ∧
    ∀ k, ((prepareToPlay c (AafoaCreatorAudioProcessor.new c iir0 conv0) sr n).delays k).line =
      List.replicate
        (staticCastInt (((c.FIR_LEN : ℚ) / 2 - 1) / c.FIR_SAMPLE_RATE * sr)).toNat 0 := by
  obtain ⟨hd, hw, hcoinc, hz, hord⟩ :=
    prepareToPlay_delays c (AafoaCreatorAudioProcessor.new c iir0 conv0) sr n
  obtain ⟨_, hdel, _, _⟩ := new_construction c iir0 conv0
  obtain ⟨_, _, hin, hout⟩ := prepareToPlay_construction c
    (AafoaCreatorAudioProcessor.new c iir0 conv0) sr n (new_construction c iir0 conv0)
  refine ⟨hw, hz, hcoinc, hord, hin, hout, ?_⟩
  intro k
  rw [(hd k).2.2, hdel k]

/-- The response of the newly prepared processor to a unit impulse on Front:
working buffer at sample 0, and the four output channels. -/
theorem impulse_output (c : Constants K) (iir0 : J.IIRFilter) (conv0 : J.Convolution)
    (sr : ℚ) (n N i : ℕ) (hi : i < N) :
    ((encode false (prepareToPlay c (AafoaCreatorAudioProcessor.new c iir0 conv0) sr
        n).foaChannelBuffer (impulseBlock K N)).data 0 0 = 1 ∧
      (encode false (prepareToPlay c (AafoaCreatorAudioProcessor.new c iir0 conv0) sr
        n).foaChannelBuffer (impulseBlock K N)).data 3 0 = 1 ∧
      (encode false (prepareToPlay c (AafoaCreatorAudioProcessor.new c iir0 conv0) sr
        n).foaChannelBuffer (impulseBlock K N)).data 1 0 = 0 ∧
      (encode false (prepareToPlay c (AafoaCreatorAudioProcessor.new c iir0 conv0) sr
        n).foaChannelBuffer (impulseBlock K N)).data 2 0 = -1) ∧
    (processBlock c (prepareToPlay c (AafoaCreatorAudioProcessor.new c iir0 conv0) sr n)
      (impulseBlock K N)).2.data 2 0 = -c.SN3D_WEIGHT_1 ∧
    (processBlock c (prepareToPlay c (AafoaCreatorAudioProcessor.new c iir0 conv0) sr n)
      (impulseBlock K N)).2.data 1 i = 0 ∧
    (processBlock c (prepareToPlay c (AafoaCreatorAudioProcessor.new c iir0 conv0) sr n)
      (impulseBlock K N)).2.data 0 i =
      (if i = (staticCastInt (((c.FIR_LEN : ℚ) / 2 - 1) / c.FIR_SAMPLE_RATE * sr)).toNat then
        c.SN3D_WEIGHT_0 else 0) ∧
    (processBlock c (prepareToPlay c (AafoaCreatorAudioProcessor.new c iir0 conv0) sr n)
      (impulseBlock K N)).2.data 3 i =
      (if i = (staticCastInt (((c.FIR_LEN : ℚ) / 2 - 1) / c.FIR_SAMPLE_RATE * sr)).toNat then
        c.SN3D_WEIGHT_1 else 0) := by
  obtain ⟨hw, hz, hcoinc, hord, hin, hout, hline⟩ := prepared_new c iir0 conv0 sr n
  have hN : 0 < (impulseBlock K N).numSamples := Nat.lt_of_le_of_lt (Nat.zero_le i) hi
  have hiN : i < (impulseBlock K N).numSamples := hi
  have hnf : (prepareToPlay c (AafoaCreatorAudioProcessor.new c iir0 conv0) sr n).channelOrder ≠
      eChannelOrder.FUMA := by
    rw [hord]; decide
  have henc0 := encode_data false
    (prepareToPlay c (AafoaCreatorAudioProcessor.new c iir0 conv0) sr n).foaChannelBuffer
    (impulseBlock K N) 0 hN
  have hzout := (processBlock_z_channel c
    (prepareToPlay c (AafoaCreatorAudioProcessor.new c iir0 conv0) sr n) (impulseBlock K N) 0
    hz rfl hin hout hN).1 hord
  have hdel := processBlock_delayed_output c
    (prepareToPlay c (AafoaCreatorAudioProcessor.new c iir0 conv0) sr n) (impulseBlock K N) i
    hcoinc hin hout rfl hiN
  rw [if_neg hnf, if_neg hnf, hw,
    Delay.process_silent _ _ _ _ i (hline 0) hiN, Delay.process_silent _ _ _ _ i (hline 1) hiN,
    Delay.process_silent _ _ _ _ i (hline 2) hiN] at hdel
  refine ⟨⟨?_, ?_, ?_, ?_⟩, ?_, ?_, ?_, ?_⟩
  · rw [henc0.2.2.2]; simp [impulseBlock]
  · rw [henc0.1]; simp [impulseBlock]
  · rw [henc0.2.1]; simp [impulseBlock]
  · rw [henc0.2.2.1]; simp [impulseBlock]
  · rw [hzout]; simp [impulseBlock]
  · rw [hdel.2.2]
    split_ifs with h
    · simp
    · have hj : i - (staticCastInt (((c.FIR_LEN : ℚ) / 2 - 1) / c.FIR_SAMPLE_RATE * sr)).toNat <
          (impulseBlock K N).numSamples := lt_of_le_of_lt (Nat.sub_le _ _) hiN
      rw [(encode_data false _ (impulseBlock K N) _ hj).2.1]
      simp [impulseBlock]
  · rw [hdel.1]
    by_cases h : i < (staticCastInt (((c.FIR_LEN : ℚ) / 2 - 1) / c.FIR_SAMPLE_RATE * sr)).toNat
    · rw [if_pos h, if_neg (Nat.ne_of_lt h)]; simp
    · have hj : i - (staticCastInt (((c.FIR_LEN : ℚ) / 2 - 1) / c.FIR_SAMPLE_RATE * sr)).toNat <
          (impulseBlock K N).numSamples := lt_of_le_of_lt (Nat.sub_le _ _) hiN
      rw [if_neg h, (encode_data false _ (impulseBlock K N) _ hj).2.2.2]
      have hiff : i - (staticCastInt (((c.FIR_LEN : ℚ) / 2 - 1) / c.FIR_SAMPLE_RATE * sr)).toNat
          = 0 ↔ i = (staticCastInt (((c.FIR_LEN : ℚ) / 2 - 1) / c.FIR_SAMPLE_RATE * sr)).toNat := by
        omega
      simp [impulseBlock, hiff]
  · rw [hdel.2.1]
    by_cases h : i < (staticCastInt (((c.FIR_LEN : ℚ) / 2 - 1) / c.FIR_SAMPLE_RATE * sr)).toNat
    · rw [if_pos h, if_neg (Nat.ne_of_lt h)]; simp
    · have hj : i - (staticCastInt (((c.FIR_LEN : ℚ) / 2 - 1) / c.FIR_SAMPLE_RATE * sr)).toNat <
          (impulseBlock K N).numSamples := lt_of_le_of_lt (Nat.sub_le _ _) hiN
      rw [if_neg h, (encode_data false _ (impulseBlock K N) _ hj).1]
      have hiff : i - (staticCastInt (((c.FIR_LEN : ℚ) / 2 - 1) / c.FIR_SAMPLE_RATE * sr)).toNat
          = 0 ↔ i = (staticCastInt (((c.FIR_LEN : ℚ) / 2 - 1) / c.FIR_SAMPLE_RATE * sr)).toNat := by
        omega
      simp [impulseBlock, hiff]

/-- C8 (as the code has it). Impulse check: on a newly prepared processor
(`prepareToPlay (sr, n)` on the new processor: `combinedW`, `diffEqualization`,
`coincEqualization` off, ACN order), for a block of `N` samples whose Front
channel is a unit impulse at sample 0 and whose other channels are zero, the
A-to-B matrix leaves W = 1, X = 1, Y = 0, Z = -1 at sample 0 of the working
buffer; the output holds Z = `-SN3D_WEIGHT_1` at sample 0 (channel 2), Y = 0
throughout (channel 1), and W (channel 0) and X (channel 3) are zero except at
sample `d = static_cast<int> (firLatencySec * sr)`, where W = `SN3D_WEIGHT_0`
and X = `SN3D_WEIGHT_1`. -/
theorem impulse_response (c : Constants K) (iir0 : J.IIRFilter) (conv0 : J.Convolution)
    (sr : ℚ) (n N i : ℕ) (hi : i < N) :
    ((encode false (preparedProcessor c iir0 conv0 sr n).foaChannelBuffer
        (impulseBlock K N)).data 0 0 = 1 ∧
      (encode false (preparedProcessor c iir0 conv0 sr n).foaChannelBuffer
        (impulseBlock K N)).data 3 0 = 1 ∧
      (encode false (preparedProcessor c iir0 conv0 sr n).foaChannelBuffer
        (impulseBlock K N)).data 1 0 = 0 ∧
      (encode false (preparedProcessor c iir0 conv0 sr n).foaChannelBuffer
        (impulseBlock K N)).data 2 0 = -1) ∧
    (processBlock c (preparedProcessor c iir0 conv0 sr n) (impulseBlock K N)).2.data 2 0 =
      -c.SN3D_WEIGHT_1 ∧
    (processBlock c (preparedProcessor c iir0 conv0 sr n) (impulseBlock K N)).2.data 1 i = 0 ∧
    (processBlock c (preparedProcessor c iir0 conv0 sr n) (impulseBlock K N)).2.data 0 i =
      (if i = (staticCastInt (((c.FIR_LEN : ℚ) / 2 - 1) / c.FIR_SAMPLE_RATE * sr)).toNat then
        c.SN3D_WEIGHT_0 else 0) ∧
    (processBlock c (preparedProcessor c iir0 conv0 sr n) (impulseBlock K N)).2.data 3 i =
      (if i = (staticCastInt (((c.FIR_LEN : ℚ) / 2 - 1) / c.FIR_SAMPLE_RATE * sr)).toNat then
        c.SN3D_WEIGHT_1 else 0) :=
  impulse_output c iir0 conv0 sr n N i hi

/-- Witness of C8 (as the code has it): prepared at 480 Hz the delay is 2
samples; in a block of 4 samples W leaves at sample 2 with amplitude 1. -/
theorem impulse_response_witness :
    2 < 4 ∧
    (processBlock trialConstants (preparedProcessor trialConstants () () 480 8 :
      AafoaCreatorAudioProcessor ℚ (idDsp ℚ)) (impulseBlock ℚ 4)).2.data 0 2 =
      (if 2 = (staticCastInt (((trialConstants.FIR_LEN : ℚ) / 2 - 1) /
        trialConstants.FIR_SAMPLE_RATE * 480)).toNat then trialConstants.SN3D_WEIGHT_0 else 0) :=
  ⟨by decide, (impulse_response (J := idDsp ℚ) trialConstants () () 480 8 4 2
    (by decide)).2.2.2.1⟩

/-- The delay of an FIR of 512 taps designed at 48 kHz, at 48 kHz: 255 samples. -/
theorem headerConstants_delay {F : Type} [Field F] (w : F) :
    (staticCastInt ((((headerConstants w).FIR_LEN : ℚ) / 2 - 1) /
      (headerConstants w).FIR_SAMPLE_RATE * 48000)).toNat = 255 := by
  norm_num [headerConstants, staticCastInt]
  rfl

/-- Counterexample to C8 as stated: over the reals, with `SN3D_WEIGHT_0 = 1`,
`SN3D_WEIGHT_1 = 1/√3` and an FIR of 512 taps designed at 48 kHz, the newly
prepared processor (48 kHz) answers a unit impulse on Front with Z = `-1/√3`,
W = 0 and X = 0 at sample 0 of the output, not Z = -1, W = 1, X = 1. -/
theorem impulse_counterexample :
    ((processBlock (headerConstants (1 / Real.sqrt 3))
      (preparedProcessor (headerConstants (1 / Real.sqrt 3)) () () 48000 512 :
        AafoaCreatorAudioProcessor ℝ (idDsp ℝ)) (impulseBlock ℝ 512)).2.data 2 0 =
        -(1 / Real.sqrt 3) ∧
      (processBlock (headerConstants (1 / Real.sqrt 3))
        (preparedProcessor (headerConstants (1 / Real.sqrt 3)) () () 48000 512 :
          AafoaCreatorAudioProcessor ℝ (idDsp ℝ)) (impulseBlock ℝ 512)).2.data 0 0 = 0 ∧
      (processBlock (headerConstants (1 / Real.sqrt 3))
        (preparedProcessor (headerConstants (1 / Real.sqrt 3)) () () 48000 512 :
          AafoaCreatorAudioProcessor ℝ (idDsp ℝ)) (impulseBlock ℝ 512)).2.data 3 0 = 0) ∧
    (processBlock (headerConstants (1 / Real.sqrt 3))
      (preparedProcessor (headerConstants (1 / Real.sqrt 3)) () () 48000 512 :
        AafoaCreatorAudioProcessor ℝ (idDsp ℝ)) (impulseBlock ℝ 512)).2.data 2 0 ≠ -1 ∧
    (processBlock (headerConstants (1 / Real.sqrt 3))
      (preparedProcessor (headerConstants (1 / Real.sqrt 3)) () () 48000 512 :
        AafoaCreatorAudioProcessor ℝ (idDsp ℝ)) (impulseBlock ℝ 512)).2.data 0 0 ≠ 1 ∧
    (processBlock (headerConstants (1 / Real.sqrt 3))
      (preparedProcessor (headerConstants (1 / Real.sqrt 3)) () () 48000 512 :
        AafoaCreatorAudioProcessor ℝ (idDsp ℝ)) (impulseBlock ℝ 512)).2.data 3 0 ≠ 1 := by
  have h := impulse_output (J := idDsp ℝ) (headerConstants (1 / Real.sqrt 3)) () () 48000 512
    512 0 (by decide)
  have hd := headerConstants_delay (1 / Real.sqrt 3)
  obtain ⟨_, hz, _, hw, hx⟩ := h
  rw [hd] at hw hx
  have hz2 : (processBlock (headerConstants (1 / Real.sqrt 3))
      (preparedProcessor (headerConstants (1 / Real.sqrt 3)) () () 48000 512 :
        AafoaCreatorAudioProcessor ℝ (idDsp ℝ)) (impulseBlock ℝ 512)).2.data 2 0 =
        -(1 / Real.sqrt 3) := hz
  have hw2 : (processBlock (headerConstants (1 / Real.sqrt 3))
      (preparedProcessor (headerConstants (1 / Real.sqrt 3)) () () 48000 512 :
        AafoaCreatorAudioProcessor ℝ (idDsp ℝ)) (impulseBlock ℝ 512)).2.data 0 0 = 0 := by
    simpa using hw
  have hx2 : (processBlock (headerConstants (1 / Real.sqrt 3))
      (preparedProcessor (headerConstants (1 / Real.sqrt 3)) () () 48000 512 :
        AafoaCreatorAudioProcessor ℝ (idDsp ℝ)) (impulseBlock ℝ 512)).2.data 3 0 = 0 := by
    simpa using hx
  refine ⟨⟨hz2, hw2, hx2⟩, ?_, ?_, ?_⟩
  · rw [hz2]
    intro hcontra
    have h1 : (1 : ℝ) / Real.sqrt 3 = 1 := by linarith
    have h3 : Real.sqrt 3 = 1 := by
      have hpos : (0 : ℝ) < Real.sqrt 3 := Real.sqrt_pos.mpr (by norm_num)
      field_simp at h1
      linarith
    have h4 : (3 : ℝ) = 1 := by
      have := Real.sq_sqrt (show (0 : ℝ) ≤ 3 by norm_num)
      rw [h3] at this
      linarith
    norm_num at h4
  · rw [hw2]; norm_num
  · rw [hx2]; norm_num

/-! ### Evaluation on concrete inputs -/

/-- The cast of 1 is 1. -/
theorem staticCastInt_one : staticCastInt 1 = 1 := by
  norm_num [staticCastInt]

/-- At 480 Hz the delay of the trial constants is 2 samples
(`255 / 48000 * 480 = 2.55`). -/
theorem trial_delay_480 :
    (staticCastInt (trialProcessor.firLatencySec * 480)).toNat = 2 := by
  have h : staticCastInt (trialProcessor.firLatencySec * 480) = 2 := by
    norm_num [trialProcessor, AafoaCreatorAudioProcessor.new, trialConstants, headerConstants,
      staticCastInt, Int.floor_eq_iff]
  rw [h]; rfl

/-- The state `trialFuma`: FuMa order, flags off, four channels on the buses,
delay lines holding two zeros. -/
theorem trialFuma_state :
    trialFuma.channelOrder = eChannelOrder.FUMA ∧
    trialFuma.isWCombined = false ∧
    trialFuma.doCoincPatternEqualization = false ∧
    trialFuma.totalNumInputChannels = 4 ∧
    trialFuma.totalNumOutputChannels = 4 ∧
    ∀ k, (trialFuma.delays k).line = [0, 0] := by
  obtain ⟨hw, _, hcoinc, _, hin, hout, hline⟩ :=
    prepared_new (J := idDsp ℚ) trialConstants () () 480 8
  have hd : (staticCastInt (((trialConstants.FIR_LEN : ℚ) / 2 - 1) /
      trialConstants.FIR_SAMPLE_RATE * 480)).toNat = 2 := trial_delay_480
  rw [hd] at hline
  refine ⟨?_, ?_, ?_, ?_, ?_, ?_⟩
  · simp [trialFuma, parameterChanged, staticCastInt_one, eChannelOrder.FUMA]
  · simpa [trialFuma, parameterChanged] using hw
  · simpa [trialFuma, parameterChanged] using hcoinc
  · simpa [trialFuma, parameterChanged] using hin
  · simpa [trialFuma, parameterChanged] using hout
  · intro k
    have := hline k
    simpa [trialFuma, parameterChanged] using this

/-- The stream `delay_compensation` predicts for W at 480 Hz over two copies of
`sampleBlock`, evaluated: two zeros, then `Front + Back`. -/
theorem trial_w_stream :
    ((List.replicate (staticCastInt (trialProcessor.firLatencySec * 480)).toNat 0 ++
        blockStream (fun b i =>
          if trialProcessor.isWCombined then
            1 / 2 * (b.data 0 i + b.data 1 i + b.data 2 i + b.data 3 i)
          else b.data 0 i + b.data 1 i) [sampleBlock, sampleBlock]).take
            (totalSamples [sampleBlock, sampleBlock])).map
        (fun x => trialConstants.SN3D_WEIGHT_0 * x) = [0, 0, 30, 32, 34, 36, 30, 32] := by
  rw [trial_delay_480]
  simp [blockStream, totalSamples, sampleBlock, List.range_succ, trialProcessor,
    AafoaCreatorAudioProcessor.new, trialConstants, headerConstants]
  norm_num

/-- The stream `delay_compensation` predicts for X at 480 Hz over two copies of
`sampleBlock`, evaluated: two zeros, then `4/7 * (Front - Back)`. -/
theorem trial_x_stream :
    ((List.replicate (staticCastInt (trialProcessor.firLatencySec * 480)).toNat 0 ++
        blockStream (fun b i => b.data 0 i - b.data 1 i) [sampleBlock, sampleBlock]).take
            (totalSamples [sampleBlock, sampleBlock])).map
        (fun x => trialConstants.SN3D_WEIGHT_1 * x) =
      [0, 0, -40 / 7, -40 / 7, -40 / 7, -40 / 7, -40 / 7, -40 / 7] := by
  rw [trial_delay_480]
  simp [blockStream, totalSamples, sampleBlock, List.range_succ, trialConstants,
    headerConstants]
  norm_num

/-- The X the filter bank leaves at sample 2 of `sampleBlock` in `trialFuma`,
weighted: the encoded X of sample 0, `10 - 20`, times 4/7. -/
theorem trialFuma_weighted_x :
    trialConstants.SN3D_WEIGHT_1 *
      (filterBank
        { trialFuma with
          foaChannelBuffer := encode trialFuma.isWCombined trialFuma.foaChannelBuffer sampleBlock }
        sampleBlock.numSamples).foaChannelBuffer.data 3 2 = -40 / 7 := by
  obtain ⟨_, _, hcoinc, _, _, hline⟩ := trialFuma_state
  have hlen : (2 : ℕ) < sampleBlock.numSamples := by decide
  have hzero : (0 : ℕ) < sampleBlock.numSamples := by decide
  have hx := (encode_data trialFuma.isWCombined trialFuma.foaChannelBuffer sampleBlock 0 hzero).1
  have hl : (trialFuma.delays 1).line = List.replicate 2 0 := hline 1
  rw [(filterBank_delay_path
    { trialFuma with
      foaChannelBuffer := encode trialFuma.isWCombined trialFuma.foaChannelBuffer sampleBlock }
    sampleBlock.numSamples hcoinc).2.2.1]
  rw [Delay.process_silent _ _ _ 2 2 hl hlen]
  simp only [lt_self_iff_false, if_false, Nat.sub_self]
  rw [hx]
  norm_num [sampleBlock, trialConstants, headerConstants]

/-- Witness of C2: the new processor prepared at 480 Hz (delay 2 samples) and
switched to FuMa order, on `sampleBlock`: output channel 1 at sample 2 is
`SN3D_WEIGHT_1` times the X the filter bank left there, `4/7 * (10 - 20)`. -/
theorem processBlock_normalized_output_witness :
    (sampleBlock.numChannels = 4 ∧ trialFuma.totalNumInputChannels = 4 ∧
      trialFuma.totalNumOutputChannels = 4 ∧ 2 < sampleBlock.numSamples ∧
      trialFuma.channelOrder = eChannelOrder.FUMA) ∧
    (processBlock trialConstants trialFuma sampleBlock).2.data 1 2 = -40 / 7 :=
  ⟨⟨rfl, trialFuma_state.2.2.2.1, trialFuma_state.2.2.2.2.1, by decide, trialFuma_state.1⟩,
    (((processBlock_normalized_output trialConstants trialFuma sampleBlock 2 rfl
      trialFuma_state.2.2.2.1 trialFuma_state.2.2.2.2.1 (by decide)).2.1
      trialFuma_state.1).2.1).trans trialFuma_weighted_x⟩

/-- Witness of C5: the new processor prepared at 480 Hz, where the delay is 2
samples, over two consecutive copies of `sampleBlock` (8 samples): W comes out
as two zeros followed by `Front + Back = 30, 32, 34, 36, 30, 32`, the last two
samples of the first block leaving in the second; X (output 3, ACN order) as
two zeros followed by `4/7 * (Front - Back) = -40/7`. -/
theorem delay_compensation_witness :
    (constructionInvariant trialConstants trialProcessor ∧
      trialProcessor.doCoincPatternEqualization = false ∧
      ∀ b ∈ [sampleBlock, sampleBlock], b.numChannels = 4) ∧
    (∀ k, ((prepareToPlay trialConstants trialProcessor 480 8).delays k).delayInSamples = 2) ∧
    blockStream (fun b => b.data 0)
        (processBlocks trialConstants (prepareToPlay trialConstants trialProcessor 480 8)
          [sampleBlock, sampleBlock]).2 = [0, 0, 30, 32, 34, 36, 30, 32] ∧
    blockStream (fun b => b.data (if trialProcessor.channelOrder = eChannelOrder.FUMA then 1 else 3))
        (processBlocks trialConstants (prepareToPlay trialConstants trialProcessor 480 8)
          [sampleBlock, sampleBlock]).2 =
      [0, 0, -40 / 7, -40 / 7, -40 / 7, -40 / 7, -40 / 7, -40 / 7] :=
  ⟨⟨new_construction (J := idDsp ℚ) trialConstants () (), rfl, by simp [sampleBlock]⟩,
    fun k => ((delay_compensation trialConstants trialProcessor 480 8 [sampleBlock, sampleBlock]
      (new_construction (J := idDsp ℚ) trialConstants () ()) rfl
      (by simp [sampleBlock])).2.1 k).2.trans trial_delay_480,
    (delay_compensation trialConstants trialProcessor 480 8 [sampleBlock, sampleBlock]
      (new_construction (J := idDsp ℚ) trialConstants () ()) rfl
      (by simp [sampleBlock])).2.2.2.1.trans trial_w_stream,
    (delay_compensation trialConstants trialProcessor 480 8 [sampleBlock, sampleBlock]
      (new_construction (J := idDsp ℚ) trialConstants () ()) rfl
      (by simp [sampleBlock])).2.2.2.2.1.trans trial_x_stream⟩

end Theorems

end AmbiCreator
